import Mathlib

/-!
Verification development for an offline-capable task manager PWA.

The embedding models the core synchronization subsystem:
the IndexedDB-backed local store (lib/indexedDB.ts, object `offlineDB`),
the server-action dispatch (app/actions/syncActions.ts,
`syncPendingTaskWithServer`), and the sync engine
(lib/syncManager.ts, `syncManager.synchronize`).

Modelling conventions:
- A TypeScript optional/nullable string field becomes `Option String`;
  `none` stands for `undefined`/`null`.  JavaScript truthiness of a string
  (`if (s)`) is `strTruthy`: `none` and the empty string are falsy.
- The IndexedDB object store (`keyPath: local_id`, unique index on `id`)
  becomes a `List Task`; `putTask` mirrors `IDBObjectStore.put`, including
  the `ConstraintError` raised when the unique `id` index would be violated
  and the `DataError` raised when the key path value is missing.
  Transactional operations (`bulkSaveTasks`, `updateTaskAfterSync`) return
  `Except`; the error case leaves the list unchanged, matching the abort of
  the IndexedDB transaction.
- Wall-clock reads (Date.now and toISOString) and random
  suffixes (`Math.random-based suffixes`) are passed in as explicit
  string parameters.
- The sync engine external collaborators (navigator connectivity, the
  server actions `syncPendingTaskWithServer`/`fetchServerUpdates`) are an
  explicit environment `SyncEnv`; `localStorage` watermark and the
  `isSyncing` flag live in `SyncState`.
-/

namespace Spec

/-- Task status enum, from `lib/types.ts` (`z.enum(...)`). -/
inductive TaskStatus where
  | pending
  | in_progress
  | completed
deriving DecidableEq, Repr

/-- Sync status enum, from `lib/types.ts`. -/
inductive SyncStatus where
  | synced
  | pending_create
  | pending_update
  | pending_delete
deriving DecidableEq, Repr

/-- The Task record, from `TaskSchema` in `lib/types.ts`.  Optional fields
default to `none`, required fields to innocuous values, so that the empty
JS object used in `updateTaskAfterSync` is representable. -/
structure Task where
  id : Option String := none
  local_id : Option String := none
  title : String := ""
  description : Option String := none
  assigned_to : Option String := none
  status : TaskStatus := TaskStatus.pending
  is_deleted : Option Bool := none
  created_at : Option String := none
  updated_at : Option String := none
  sync_status : Option SyncStatus := none
deriving DecidableEq, Repr

/-- JavaScript truthiness of an optional string: `undefined`, `null` and
the empty string are falsy. -/
def strTruthy : Option String → Bool
  | none => false
  | some s => decide (s ≠ "")

/-- JavaScript truthy-or `a || b` for an optional string with a string
fallback. -/
def jsOr (a : Option String) (b : String) : String :=
  match a with
  | none => b
  | some s => if s = "" then b else s

/-- Kernel-computable test for a string whose trim is empty: every
character is whitespace.  Stands in for the JavaScript check
trim-equals-empty-string. -/
def allWhitespace (s : String) : Bool :=
  s.data.all Char.isWhitespace

/-- Guard of saveTask on the incoming local id: missing, empty, or
all-whitespace (the code checks falsiness and a trimmed empty string). -/
def localIdBlank : Option String → Bool
  | none => true
  | some s => decide (s = "") || allWhitespace s

/-- The local id synthesized by `saveTask` when the input lacks one:
the literal local_ prefix, then the server id if truthy and non-blank or
else new_ plus Date.now(), then an underscore and a random suffix. -/
def synthLocalId (t : Task) (nowMs rand : String) : String :=
  let base :=
    match t.id with
    | some s => if s ≠ "" ∧ allWhitespace s = false then s else "new_" ++ nowMs
    | none => "new_" ++ nowMs
  "local_" ++ base ++ "_" ++ rand

/-- The local id synthesized by `bulkSaveTasks`:
the server id if truthy, or else a generated fallback string passed in as
the parameter `gen`. -/
def bulkSynthLocalId (t : Task) (gen : String) : String :=
  match t.id with
  | some s => if s = "" then gen else s
  | none => gen

/-- JavaScript object spread merge of two tasks, as in
spreading a then b: a field of `b` overrides the same field of `a` when it is
present (`some`); absent optional fields of `b` fall through to `a`. -/
def jsMerge (a b : Task) : Task :=
  { id := b.id.orElse (fun _ => a.id)
    local_id := b.local_id.orElse (fun _ => a.local_id)
    title := b.title
    description := b.description.orElse (fun _ => a.description)
    assigned_to := b.assigned_to.orElse (fun _ => a.assigned_to)
    status := b.status
    is_deleted := b.is_deleted.orElse (fun _ => a.is_deleted)
    created_at := b.created_at.orElse (fun _ => a.created_at)
    updated_at := b.updated_at.orElse (fun _ => a.updated_at)
    sync_status := b.sync_status.orElse (fun _ => a.sync_status) }

/-- The tasks object store: a list of records, keyed by `local_id`. -/
abbrev Store := List Task

/-- Errors of the storage engine: the `ConstraintError` of the unique `id`
index, and the `DataError` of a `put` whose key path value is missing. -/
inductive DBError where
  | constraintViolation
  | missingKey
deriving DecidableEq, Repr

/-- Replace the record stored under key `k`, or append the record if the
key is not present (IDBObjectStore.put upsert semantics). -/
def upsert (store : Store) (k : String) (t : Task) : Store :=
  if store.any (fun u => decide (u.local_id = some k)) then
    store.map (fun u => if u.local_id = some k then t else u)
  else
    store ++ [t]

/-- Model of IDBObjectStore.put against the `tasks` store: requires the key path
field `local_id`, and rejects with `ConstraintError` when the unique `id`
index already holds the same server id under a different key. -/
def putTask (store : Store) (t : Task) : Except DBError Store :=
  match t.local_id with
  | none => .error .missingKey
  | some k =>
    match t.id with
    | some s =>
      if store.any (fun u => decide (u.id = some s ∧ u.local_id ≠ some k)) then
        .error .constraintViolation
      else
        .ok (upsert store k t)
    | none => .ok (upsert store k t)

/-- Physical removal by primary key (db.delete), used by `deleteTask` and
by the consolidation step of `updateTaskAfterSync`. -/
def deleteByKey (store : Store) (k : String) : Store :=
  store.filter (fun u => decide (u.local_id ≠ some k))

/-- Lookup through the unique `id` index (getFromIndex on the id index). -/
def getFromIndexId (store : Store) (s : String) : Option Task :=
  store.find? (fun u => decide (u.id = some s))

/-- Model of offlineDB.getTaskByLocalId: guard on a falsy argument, then a
primary key get. -/
def getTaskByLocalId (store : Store) (local_id : String) : Option Task :=
  if local_id = "" then none
  else store.find? (fun u => decide (u.local_id = some local_id))

/-- Model of offlineDB.getPendingChanges: the three pending groups
concatenated. -/
def getPendingChanges (store : Store) : List Task :=
  store.filter (fun t => decide (t.sync_status = some SyncStatus.pending_create)) ++
  store.filter (fun t => decide (t.sync_status = some SyncStatus.pending_update)) ++
  store.filter (fun t => decide (t.sync_status = some SyncStatus.pending_delete))

/-- Step 1 of saveTask: ensure a local id, synthesizing one when the
incoming value is blank. -/
def ensureLocalId (taskInput : Task) (nowMs rand : String) : Task :=
  if localIdBlank taskInput.local_id then
    { taskInput with local_id := some (synthLocalId taskInput nowMs rand) }
  else taskInput

/-- Consolidation step shared by saveTask and bulkSaveTasks: when the
record carries a truthy server id already stored under a truthy and
different local id, reuse the stored local id. -/
def consolidateLocalId (store : Store) (t : Task) : Task :=
  match t.id with
  | some s =>
    if s = "" then t
    else
      match getFromIndexId store s with
      | some existing =>
        if strTruthy existing.local_id = true ∧ existing.local_id ≠ t.local_id then
          { t with local_id := existing.local_id }
        else t
      | none => t
  | none => t

/-- Step 3 of saveTask: a task without server id not already marked
pending_create is marked pending_create, stamping created_at when absent. -/
def markPendingCreate (t : Task) (now : String) : Task :=
  if strTruthy t.id = false ∧ t.sync_status ≠ some SyncStatus.pending_create then
    let ta : Task := { t with sync_status := some SyncStatus.pending_create }
    if strTruthy ta.created_at = false then { ta with created_at := some now } else ta
  else t

/-- saveTask always refreshes updated_at. -/
def refreshUpdatedAt (t : Task) (now : String) : Task :=
  { t with updated_at := some now }

/-- bulkSaveTasks refreshes updated_at only when it is absent. -/
def refreshUpdatedAtIfAbsent (t : Task) (now : String) : Task :=
  if strTruthy t.updated_at = false then { t with updated_at := some now } else t

/-- Backfill created_at from updated_at when absent (both code paths). -/
def backfillCreatedAt (t : Task) : Task :=
  if strTruthy t.created_at = false then { t with created_at := t.updated_at } else t

/-- saveTask defaults an unset sync_status to synced. -/
def defaultSyncStatus (t : Task) : Task :=
  if t.sync_status = none then { t with sync_status := some SyncStatus.synced } else t

/-- bulkSaveTasks defaults sync_status in two guarded steps, both ending
at synced for an unset status. -/
def bulkDefaultSyncStatus (t : Task) : Task :=
  let t5 : Task :=
    if strTruthy t.id = true ∧ t.sync_status = none then
      { t with sync_status := some SyncStatus.synced }
    else t
  if t5.sync_status = none then { t5 with sync_status := some SyncStatus.synced } else t5

/-- The record `offlineDB.saveTask` builds before the final `put`:
local id synthesis, consolidation by server id, `pending_create` marking,
timestamp refresh, and sync status defaulting, in source order. -/
def saveTaskRecord (store : Store) (taskInput : Task) (nowMs rand now : String) : Task :=
  defaultSyncStatus
    (backfillCreatedAt
      (refreshUpdatedAt
        (markPendingCreate (consolidateLocalId store (ensureLocalId taskInput nowMs rand)) now)
        now))

/-- Model of offlineDB.saveTask: build the record, put it, return the
local id used. -/
def saveTask (store : Store) (taskInput : Task) (nowMs rand now : String) :
    Except DBError (Store × String) :=
  let record0 := saveTaskRecord store taskInput nowMs rand now
  (putTask store record0).map (fun st2 => (st2, record0.local_id.getD ""))

/-- Step 1 of one bulkSaveTasks iteration: ensure a local id from the
server id or the generated fallback. -/
def bulkEnsureLocalId (task : Task) (gen : String) : Task :=
  if strTruthy task.local_id = false then
    { task with local_id := some (bulkSynthLocalId task gen) }
  else task

/-- The record one iteration of `offlineDB.bulkSaveTasks` builds before its
`put`: local id from server id or generated fallback, consolidation by
server id, timestamps only when absent, sync status defaulting. -/
def bulkSaveRecord (store : Store) (task : Task) (gen now : String) : Task :=
  bulkDefaultSyncStatus
    (backfillCreatedAt
      (refreshUpdatedAtIfAbsent (consolidateLocalId store (bulkEnsureLocalId task gen)) now))

/-- One iteration of the `bulkSaveTasks` loop. -/
def bulkSaveStep (store : Store) (task : Task) (gen now : String) : Except DBError Store :=
  putTask store (bulkSaveRecord store task gen now)

/-- The `bulkSaveTasks` loop over the batch; index `i` selects the
generated fallback id for each element.  An error aborts the whole
transaction (the caller observes the original store). -/
def bulkSaveAux (gen : Nat → String) (now : String) :
    List Task → Nat → Store → Except DBError Store
  | [], _, store => .ok store
  | t :: ts, i, store =>
    match bulkSaveStep store t (gen i) now with
    | .ok st2 => bulkSaveAux gen now ts (i + 1) st2
    | .error e => .error e

/-- Model of offlineDB.bulkSaveTasks. -/
def bulkSaveTasks (store : Store) (tasks : List Task) (gen : Nat → String) (now : String) :
    Except DBError Store :=
  bulkSaveAux gen now tasks 0 store

/-- The merged record `offlineDB.updateTaskAfterSync` builds: the existing
record under `originalLocalId` (or the empty object) overlaid by the server
record, with forced `local_id`, `sync_status = synced`, refreshed
`updated_at`, and backfilled `created_at`. -/
def mergedAfterSync (store : Store) (originalLocalId : String) (serverTaskData : Task)
    (now : String) : Task :=
  let taskThatWasSynced := store.find? (fun u => decide (u.local_id = some originalLocalId))
  let base := taskThatWasSynced.getD {}
  let m1 : Task := jsMerge base serverTaskData
  let m2 : Task :=
    { m1 with
      local_id := some originalLocalId
      sync_status := some SyncStatus.synced
      updated_at := some (jsOr serverTaskData.updated_at now) }
  let twsCreated :=
    match taskThatWasSynced with
    | some tw => tw.created_at
    | none => none
  let m3 : Task :=
    if strTruthy m2.created_at = false ∧ strTruthy twsCreated = true then
      { m2 with created_at := twsCreated }
    else if strTruthy m2.created_at = false then
      { m2 with created_at := m2.updated_at }
    else m2
  { m3 with local_id := some originalLocalId }

/-- The consolidation decision of `updateTaskAfterSync`: when the server id
of the incoming record is truthy and already stored under a truthy local id
different from `originalLocalId`, that other local id is canonical. -/
def conflictTarget (store : Store) (originalLocalId : String) (serverTaskData : Task) :
    Option String :=
  match serverTaskData.id with
  | some s =>
    if s = "" then none
    else
      match getFromIndexId store s with
      | some conflict =>
        if strTruthy conflict.local_id = true ∧ conflict.local_id ≠ some originalLocalId then
          conflict.local_id
        else none
      | none => none
  | none => none

/-- Model of offlineDB.updateTaskAfterSync: merge, consolidate on server-id
conflict, `put`, and physically delete the superseded record (the delete is
skipped when `originalLocalId` is falsy, mirroring the truthiness guard
`if (oldLocalIdToDelete ...)`). -/
def withLocalId (t : Task) (k : String) : Task :=
  { t with local_id := some k }

def updateTaskAfterSync (store : Store) (originalLocalId : String) (serverTaskData : Task)
    (now : String) : Except DBError Store :=
  match conflictTarget store originalLocalId serverTaskData with
  | some ck =>
    match putTask store (withLocalId (mergedAfterSync store originalLocalId serverTaskData now) ck) with
    | .ok st2 =>
      .ok (if originalLocalId = "" then st2 else deleteByKey st2 originalLocalId)
    | .error e => .error e
  | none => putTask store (mergedAfterSync store originalLocalId serverTaskData now)

/-- The record `offlineDB.updateLocalTaskStatus` builds from the stored
task: forced key, new sync status, refreshed `updated_at`, optional server
id. -/
def statusRecord (task : Task) (localIdParam : String) (syncStatusParam : SyncStatus)
    (serverId serverUpdatedAt : Option String) (now : String) : Task :=
  let t1 : Task :=
    { task with
      local_id := some localIdParam
      sync_status := some syncStatusParam
      updated_at := some (jsOr serverUpdatedAt now) }
  if strTruthy serverId = true then { t1 with id := serverId } else t1

/-- Model of offlineDB.updateLocalTaskStatus: a no-op when the key is
absent. -/
def updateLocalTaskStatus (store : Store) (localIdParam : String)
    (syncStatusParam : SyncStatus) (serverId serverUpdatedAt : Option String)
    (now : String) : Except DBError Store :=
  match store.find? (fun u => decide (u.local_id = some localIdParam)) with
  | none => .ok store
  | some task =>
    putTask store (statusRecord task localIdParam syncStatusParam serverId serverUpdatedAt now)

/-- The create payload of `syncPendingTaskWithServer`
(`CreateTaskPayload` in `lib/types.ts`): domain fields only. -/
structure CreateTaskPayload where
  title : String
  description : Option String
  assigned_to : Option String
  status : TaskStatus
deriving DecidableEq, Repr

/-- The update payload of `syncPendingTaskWithServer`
(`OnlineDBUpdatePayload`): domain fields only. -/
structure UpdateTaskPayload where
  title : String
  description : Option String
  assigned_to : Option String
  status : TaskStatus
  is_deleted : Option Bool
deriving DecidableEq, Repr

/-- The gateway operation chosen by `syncPendingTaskWithServer`. -/
inductive GatewayCall where
  | createCall (p : CreateTaskPayload)
  | updateCall (id : String) (p : UpdateTaskPayload)
  | softDeleteCall (id : String)
  | invalid (err : String)
deriving DecidableEq, Repr

/-- Discriminator: is the chosen operation a create. -/
def GatewayCall.isCreate : GatewayCall → Bool
  | .createCall _ => true
  | _ => false

/-- The dispatch logic of `syncPendingTaskWithServer`
(app/actions/syncActions.ts): branch on `sync_status` and on the
presence of the server id, building the payload from the destructured
domain fields. -/
def syncPendingDispatch (task : Task) : GatewayCall :=
  if task.sync_status = some SyncStatus.pending_create ∧ strTruthy task.id = false then
    .createCall
      { title := task.title
        description := task.description
        assigned_to := task.assigned_to
        status := task.status }
  else if task.sync_status = some SyncStatus.pending_update ∧ strTruthy task.id = true then
    .updateCall (task.id.getD "")
      { title := task.title
        description := task.description
        assigned_to := task.assigned_to
        status := task.status
        is_deleted := task.is_deleted }
  else if task.sync_status = some SyncStatus.pending_delete ∧ strTruthy task.id = true then
    .softDeleteCall (task.id.getD "")
  else
    .invalid "Invalid sync_status or missing ID"

/-- Outcome of one awaited `syncPendingTaskWithServer` call as observed by
the sync engine: a structured success, a structured failure, or a rejected
promise. -/
inductive PushCallOutcome where
  | okTask (t : Task)
  | failMsg (e : String)
  | thrownMsg (e : String)

/-- Outcome of the awaited `fetchServerUpdates` call: a task list, a
structured error field, or a rejected promise. -/
inductive FetchOutcome where
  | okTasks (ts : List Task)
  | errField (e : String)
  | thrownMsg (e : String)

/-- The sync engine environment: connectivity, the server action
outcomes (indexed by position in the pending list, and by the watermark
passed to the fetch), the generated fallback ids for `bulkSaveTasks`, and
the current timestamp. -/
structure SyncEnv where
  online : Bool
  push : Nat → PushCallOutcome
  fetch : Option String → FetchOutcome
  gen : Nat → String
  now : String

/-- The sync engine mutable state: the local store, the reentrancy flag,
and the persisted watermark. -/
structure SyncState where
  store : Store
  isSyncing : Bool
  lastSync : Option String
deriving Repr

/-- The structured result `synchronize` returns. -/
structure SyncResult where
  success : Bool
  updatedTasks : Option (List Task) := none
  error : Option String := none
deriving DecidableEq, Repr

/-- One iteration of the push loop of `synchronize`: on a successful call
with a truthy local id, reconcile through `updateTaskAfterSync`; a
structured failure, a rejected promise, or a storage error inside the
reconcile is caught by the per-record try/catch and leaves the store as it
was. -/
def pushStep (env : SyncEnv) (i : Nat) (task : Task) (store : Store) : Store :=
  match env.push i with
  | .okTask syncedTask =>
    if strTruthy task.local_id = true then
      match updateTaskAfterSync store (task.local_id.getD "") syncedTask env.now with
      | .ok st2 => st2
      | .error _ => store
    else store
  | .failMsg _ => store
  | .thrownMsg _ => store

/-- The push loop over the pending list, threading the store. -/
def pushPhaseAux (env : SyncEnv) : List Task → Nat → Store → Store
  | [], _, store => store
  | t :: ts, i, store => pushPhaseAux env ts (i + 1) (pushStep env i t store)

/-- The push phase of `synchronize`. -/
def pushPhase (env : SyncEnv) (pending : List Task) (store : Store) : Store :=
  pushPhaseAux env pending 0 store

/-- Model of syncManager.synchronize: connectivity and reentrancy guards, push
phase, pull phase, watermark bookkeeping, and the surrounding try/catch
that converts a thrown error into a structured failure result with the
`isSyncing` flag reset.  State mutations already applied when a throw
happens persist; an aborted `bulkSaveTasks` transaction does not. -/
def synchronize (env : SyncEnv) (forceFullSync : Bool) (st : SyncState) :
    SyncResult × SyncState :=
  if env.online = false then
    ({ success := false, error := some "Offline" }, st)
  else if st.isSyncing = true then
    ({ success := false, error := some "Sync in progress" }, st)
  else
    let pending := getPendingChanges st.store
    let store1 := pushPhase env pending st.store
    let lastSync := if forceFullSync then none else st.lastSync
    match env.fetch lastSync with
    | .thrownMsg e =>
      ({ success := false, error := some e },
       { store := store1, isSyncing := false, lastSync := st.lastSync })
    | .errField _ =>
      ({ success := true },
       { store := store1, isSyncing := false, lastSync := some env.now })
    | .okTasks serverUpdates =>
      if serverUpdates.length > 0 then
        match bulkSaveTasks store1 serverUpdates env.gen env.now with
        | .ok store2 =>
          ({ success := true, updatedTasks := some serverUpdates },
           { store := store2, isSyncing := false, lastSync := some env.now })
        | .error _ =>
          ({ success := false, error := some "StorageFailure" },
           { store := store1, isSyncing := false, lastSync := st.lastSync })
      else
        ({ success := true, updatedTasks := some serverUpdates },
         { store := store1, isSyncing := false, lastSync := some env.now })

/-- Well-formedness every reachable IndexedDB store state enjoys: each
record carries its key, keys are pairwise distinct, and server ids, when
present, are pairwise distinct (the unique index). -/
def WfStore (store : Store) : Prop :=
  (∀ t ∈ store, t.local_id.isSome = true) ∧
  store.Pairwise (fun a b => a.local_id ≠ b.local_id) ∧
  store.Pairwise (fun a b => ¬(a.id = b.id ∧ a.id.isSome = true))

instance (store : Store) : Decidable (WfStore store) := by
  unfold WfStore; infer_instance

/-- The invariant of claim C4: a record marked `synced` carries a truthy
server id. -/
def SyncedHasId (store : Store) : Prop :=
  ∀ t ∈ store, t.sync_status = some SyncStatus.synced → strTruthy t.id = true

instance (store : Store) : Decidable (SyncedHasId store) := by
  unfold SyncedHasId; infer_instance


/-!  Lemmas about the store primitives.  -/

theorem mem_upsert {store : Store} {k : String} {t u : Task}
    (h : u ∈ upsert store k t) : u = t ∨ u ∈ store := by
  unfold upsert at h
  split at h
  · rcases List.mem_map.mp h with ⟨x, hx, hfx⟩
    by_cases hk : x.local_id = some k
    · simp [hk] at hfx; exact Or.inl hfx.symm
    · simp [hk] at hfx; exact Or.inr (hfx ▸ hx)
  · rcases List.mem_append.mp h with h1 | h1
    · exact Or.inr h1
    · simp at h1; exact Or.inl h1

theorem find?_replace_self (store : Store) (k : String) (t : Task)
    (ht : t.local_id = some k)
    (h : store.any (fun u => decide (u.local_id = some k)) = true) :
    (store.map (fun u => if u.local_id = some k then t else u)).find?
      (fun u => decide (u.local_id = some k)) = some t := by
  induction store with
  | nil => simp at h
  | cons a as ih =>
    by_cases hk : a.local_id = some k
    · simp [hk, List.find?, ht]
    · simp only [List.map_cons, if_neg hk]
      rw [List.find?_cons_of_neg _ (by simp [hk])]
      apply ih
      simpa [hk] using h

theorem find?_upsert_self (store : Store) (k : String) (t : Task)
    (ht : t.local_id = some k) :
    (upsert store k t).find? (fun u => decide (u.local_id = some k)) = some t := by
  unfold upsert
  split
  · exact find?_replace_self store k t ht (by assumption)
  · next h =>
    induction store with
    | nil => simp [List.find?, ht]
    | cons a as ih =>
      simp only [List.any_cons, Bool.or_eq_true, not_or] at h
      rw [List.cons_append, List.find?_cons_of_neg _ (by simpa using h.1)]
      exact ih (by simpa using h.2)

theorem find?_replace_other (store : Store) (k k' : String) (t : Task)
    (ht : t.local_id = some k) (hne : k' ≠ k) :
    (store.map (fun u => if u.local_id = some k then t else u)).find?
      (fun u => decide (u.local_id = some k')) =
      store.find? (fun u => decide (u.local_id = some k')) := by
  induction store with
  | nil => simp
  | cons a as ih =>
    by_cases hk : a.local_id = some k
    · have hnk : ¬ (a.local_id = some k') := by rw [hk]; simp [hne.symm]
      have hnt : ¬ (t.local_id = some k') := by rw [ht]; simp [hne.symm]
      simp only [List.map_cons, if_pos hk]
      rw [List.find?_cons_of_neg _ (by simpa using hnt),
          List.find?_cons_of_neg _ (by simpa using hnk)]
      exact ih
    · simp only [List.map_cons, if_neg hk]
      by_cases hk' : a.local_id = some k'
      · rw [List.find?_cons_of_pos _ (by simpa using hk'),
            List.find?_cons_of_pos _ (by simpa using hk')]
      · rw [List.find?_cons_of_neg _ (by simpa using hk'),
            List.find?_cons_of_neg _ (by simpa using hk')]
        exact ih

theorem find?_upsert_other (store : Store) (k k' : String) (t : Task)
    (ht : t.local_id = some k) (hne : k' ≠ k) :
    (upsert store k t).find? (fun u => decide (u.local_id = some k')) =
      store.find? (fun u => decide (u.local_id = some k')) := by
  unfold upsert
  split
  · exact find?_replace_other store k k' t ht hne
  · rw [List.find?_append]
    have h1 : List.find? (fun u => decide (u.local_id = some k')) [t] = none := by
      simp [List.find?, ht, hne.symm]
    rw [h1]
    simp

theorem find?_deleteByKey_self (store : Store) (k : String) :
    (deleteByKey store k).find? (fun u => decide (u.local_id = some k)) = none := by
  rw [List.find?_eq_none]
  intro x hx
  rcases List.mem_filter.mp hx with ⟨-, hpx⟩
  simpa using of_decide_eq_true hpx

theorem find?_deleteByKey_other (store : Store) (k k' : String) (hne : k' ≠ k) :
    (deleteByKey store k).find? (fun u => decide (u.local_id = some k')) =
      store.find? (fun u => decide (u.local_id = some k')) := by
  unfold deleteByKey
  induction store with
  | nil => simp
  | cons a as ih =>
    by_cases hk : a.local_id = some k
    · have hnk : ¬ (a.local_id = some k') := by rw [hk]; simp [hne.symm]
      rw [List.filter_cons_of_neg (by simpa using hk),
          List.find?_cons_of_neg _ (by simpa using hnk)]
      exact ih
    · rw [List.filter_cons_of_pos (by simpa using hk)]
      by_cases hk' : a.local_id = some k'
      · rw [List.find?_cons_of_pos _ (by simpa using hk'),
            List.find?_cons_of_pos _ (by simpa using hk')]
      · rw [List.find?_cons_of_neg _ (by simpa using hk'),
            List.find?_cons_of_neg _ (by simpa using hk')]
        exact ih

theorem idRel_symm :
    Symmetric (fun a b : Task => ¬(a.id = b.id ∧ a.id.isSome = true)) := by
  intro a b h hc
  exact h ⟨hc.1.symm, hc.1 ▸ hc.2⟩

theorem keyRel_symm :
    Symmetric (fun a b : Task => a.local_id ≠ b.local_id) :=
  fun _ _ h he => h he.symm

theorem id_unique {store : Store} {u v : Task} {s : String}
    (h3 : store.Pairwise (fun a b => ¬(a.id = b.id ∧ a.id.isSome = true)))
    (hu : u ∈ store) (hv : v ∈ store) (hus : u.id = some s) (hvs : v.id = some s) :
    u = v := by
  by_contra hne
  exact (List.Pairwise.forall idRel_symm h3 hu hv hne) ⟨hus.trans hvs.symm, by simp [hus]⟩

theorem key_unique {store : Store} {t x : Task} {k : String}
    (h2 : store.Pairwise (fun a b => a.local_id ≠ b.local_id))
    (hf : store.find? (fun u => decide (u.local_id = some k)) = some t)
    (hx : x ∈ store) (hxk : x.local_id = some k) : x = t := by
  have ht : t ∈ store := List.mem_of_find?_eq_some hf
  have htk : t.local_id = some k := by
    have := List.find?_some hf; simpa using this
  by_contra hne
  exact (List.Pairwise.forall keyRel_symm h2 hx ht hne) (hxk.trans htk.symm)

theorem wf_upsert {store : Store} {k : String} {t : Task}
    (hwf : WfStore store) (ht : t.local_id = some k)
    (hguard : ∀ u ∈ store, u.local_id ≠ some k → ¬(u.id = t.id ∧ t.id.isSome = true)) :
    WfStore (upsert store k t) := by
  obtain ⟨h1, h2, h3⟩ := hwf
  have key_f : ∀ x : Task, (if x.local_id = some k then t else x).local_id = x.local_id := by
    intro x
    by_cases hx : x.local_id = some k
    · simp [hx, ht]
    · simp [hx]
  refine ⟨?_, ?_, ?_⟩
  · intro u hu
    rcases mem_upsert hu with rfl | hu2
    · simp [ht]
    · exact h1 u hu2
  · unfold upsert
    split
    · rw [List.pairwise_map]
      exact h2.imp (fun hab => by rw [key_f, key_f]; exact hab)
    · next hAny =>
      have hAny2 : store.any (fun u => decide (u.local_id = some k)) = false := by
        simpa using hAny
      rw [List.pairwise_append]
      refine ⟨h2, by simp, ?_⟩
      intro a ha b hb
      simp only [List.mem_singleton] at hb
      subst hb
      have := List.any_eq_false.mp hAny2 a ha
      rw [ht]
      simpa using this
  · unfold upsert
    split
    · rw [List.pairwise_map]
      have hcomb := h2.and h3
      refine hcomb.imp_of_mem ?_
      intro a b ha hb hab
      obtain ⟨hkey, hid⟩ := hab
      by_cases hak : a.local_id = some k
      · have hbk : ¬ (b.local_id = some k) := fun hbk => hkey (hak.trans hbk.symm)
        simp only [if_pos hak, if_neg hbk]
        intro hc
        exact hguard b hb hbk ⟨hc.1.symm, hc.2⟩
      · by_cases hbk : b.local_id = some k
        · simp only [if_neg hak, if_pos hbk]
          intro hc
          exact hguard a ha hak ⟨hc.1, hc.1 ▸ hc.2⟩
        · simp only [if_neg hak, if_neg hbk]
          exact hid
    · next hAny =>
      have hAny2 : store.any (fun u => decide (u.local_id = some k)) = false := by
        simpa using hAny
      rw [List.pairwise_append]
      refine ⟨h3, by simp, ?_⟩
      intro a ha b hb
      simp only [List.mem_singleton] at hb
      subst hb
      have hkne : ¬ (a.local_id = some k) := by
        simpa using List.any_eq_false.mp hAny2 a ha
      intro hc
      exact hguard a ha hkne ⟨hc.1, hc.1 ▸ hc.2⟩

theorem wf_deleteByKey {store : Store} {k : String}
    (hwf : WfStore store) : WfStore (deleteByKey store k) := by
  obtain ⟨h1, h2, h3⟩ := hwf
  have hsub : List.Sublist (deleteByKey store k) store := List.filter_sublist store
  exact ⟨fun u hu => h1 u (hsub.mem hu), h2.sublist hsub, h3.sublist hsub⟩

theorem putTask_ok_elim {store : Store} {t : Task} {st2 : Store}
    (h : putTask store t = .ok st2) :
    ∃ k, t.local_id = some k ∧ st2 = upsert store k t ∧
      (∀ u ∈ store, u.local_id ≠ some k → ¬(u.id = t.id ∧ t.id.isSome = true)) := by
  cases hl : t.local_id with
  | none => simp [putTask, hl] at h
  | some k =>
    refine ⟨k, rfl, ?_⟩
    cases hi : t.id with
    | none =>
      simp only [putTask, hl, hi] at h
      simp only [Except.ok.injEq] at h
      exact ⟨h.symm, fun u hu hk hc => by simp [hi] at hc⟩
    | some s =>
      simp only [putTask, hl, hi] at h
      by_cases hAny : store.any (fun u => decide (u.id = some s ∧ u.local_id ≠ some k)) = true
      · rw [if_pos hAny] at h; exact absurd h (by simp)
      · rw [if_neg hAny] at h
        simp only [Except.ok.injEq] at h
        refine ⟨h.symm, ?_⟩
        intro u hu hk hc
        have hAll : ∀ x ∈ store, x.id = some s → x.local_id = some k := by
          simpa using hAny
        exact hk (hAll u hu hc.1)

theorem putTask_ok_of_notSome {store : Store} {t : Task} {k : String}
    (hl : t.local_id = some k) (hi : t.id = none) :
    putTask store t = .ok (upsert store k t) := by
  simp [putTask, hl, hi]

theorem putTask_ok_of_unique {store : Store} {t : Task} {k s : String}
    (hl : t.local_id = some k) (hi : t.id = some s)
    (hg : ∀ u ∈ store, u.id = some s → u.local_id = some k) :
    putTask store t = .ok (upsert store k t) := by
  have hAny : store.any (fun u => decide (u.id = some s ∧ u.local_id ≠ some k)) = false := by
    simpa using hg
  simp only [putTask, hl, hi]
  rw [hAny]
  simp

theorem wf_putTask {store : Store} {t : Task} {st2 : Store}
    (hwf : WfStore store) (h : putTask store t = .ok st2) : WfStore st2 := by
  obtain ⟨k, hl, rfl, hguard⟩ := putTask_ok_elim h
  exact wf_upsert hwf hl hguard

theorem syncedHasId_upsert {store : Store} {k : String} {t : Task}
    (hinv : SyncedHasId store)
    (ht : t.sync_status = some SyncStatus.synced → strTruthy t.id = true) :
    SyncedHasId (upsert store k t) := by
  intro u hu hsy
  rcases mem_upsert hu with rfl | hu2
  · exact ht hsy
  · exact hinv u hu2 hsy

theorem syncedHasId_putTask {store : Store} {t : Task} {st2 : Store}
    (hinv : SyncedHasId store)
    (ht : t.sync_status = some SyncStatus.synced → strTruthy t.id = true)
    (h : putTask store t = .ok st2) : SyncedHasId st2 := by
  obtain ⟨k, hl, rfl, -⟩ := putTask_ok_elim h
  exact syncedHasId_upsert hinv ht

theorem syncedHasId_deleteByKey {store : Store} {k : String}
    (hinv : SyncedHasId store) : SyncedHasId (deleteByKey store k) := by
  intro u hu hsy
  exact hinv u ((List.filter_sublist store).mem hu) hsy


theorem synthLocalId_ne_empty (t : Task) (nowMs rand : String) :
    synthLocalId t nowMs rand ≠ "" := by
  unfold synthLocalId
  intro h
  have hlen := congrArg String.length h
  simp only [String.length_append] at hlen
  have h6 : ("local_" : String).length = 6 := by decide
  have h1 : ("_" : String).length = 1 := by decide
  rw [h6, h1] at hlen
  simp at hlen


theorem ensureLocalId_fields (t : Task) (nowMs rand : String) :
    (ensureLocalId t nowMs rand).id = t.id ∧
    (ensureLocalId t nowMs rand).title = t.title ∧
    (ensureLocalId t nowMs rand).description = t.description ∧
    (ensureLocalId t nowMs rand).assigned_to = t.assigned_to ∧
    (ensureLocalId t nowMs rand).status = t.status ∧
    (ensureLocalId t nowMs rand).is_deleted = t.is_deleted ∧
    (ensureLocalId t nowMs rand).created_at = t.created_at ∧
    (ensureLocalId t nowMs rand).updated_at = t.updated_at ∧
    (ensureLocalId t nowMs rand).sync_status = t.sync_status := by
  unfold ensureLocalId
  split <;> simp

theorem consolidateLocalId_fields (store : Store) (t : Task) :
    (consolidateLocalId store t).id = t.id ∧
    (consolidateLocalId store t).title = t.title ∧
    (consolidateLocalId store t).description = t.description ∧
    (consolidateLocalId store t).assigned_to = t.assigned_to ∧
    (consolidateLocalId store t).status = t.status ∧
    (consolidateLocalId store t).is_deleted = t.is_deleted ∧
    (consolidateLocalId store t).created_at = t.created_at ∧
    (consolidateLocalId store t).updated_at = t.updated_at ∧
    (consolidateLocalId store t).sync_status = t.sync_status := by
  unfold consolidateLocalId
  repeat' split
  all_goals simp

theorem markPendingCreate_fields (t : Task) (now : String) :
    (markPendingCreate t now).id = t.id ∧
    (markPendingCreate t now).local_id = t.local_id ∧
    (markPendingCreate t now).title = t.title ∧
    (markPendingCreate t now).description = t.description ∧
    (markPendingCreate t now).assigned_to = t.assigned_to ∧
    (markPendingCreate t now).status = t.status ∧
    (markPendingCreate t now).is_deleted = t.is_deleted ∧
    (markPendingCreate t now).updated_at = t.updated_at := by
  unfold markPendingCreate
  dsimp only
  repeat' split
  all_goals simp

theorem refreshUpdatedAt_fields (t : Task) (now : String) :
    (refreshUpdatedAt t now).id = t.id ∧
    (refreshUpdatedAt t now).local_id = t.local_id ∧
    (refreshUpdatedAt t now).title = t.title ∧
    (refreshUpdatedAt t now).description = t.description ∧
    (refreshUpdatedAt t now).assigned_to = t.assigned_to ∧
    (refreshUpdatedAt t now).status = t.status ∧
    (refreshUpdatedAt t now).is_deleted = t.is_deleted ∧
    (refreshUpdatedAt t now).created_at = t.created_at ∧
    (refreshUpdatedAt t now).sync_status = t.sync_status := by
  unfold refreshUpdatedAt
  simp

theorem refreshUpdatedAtIfAbsent_fields (t : Task) (now : String) :
    (refreshUpdatedAtIfAbsent t now).id = t.id ∧
    (refreshUpdatedAtIfAbsent t now).local_id = t.local_id ∧
    (refreshUpdatedAtIfAbsent t now).title = t.title ∧
    (refreshUpdatedAtIfAbsent t now).description = t.description ∧
    (refreshUpdatedAtIfAbsent t now).assigned_to = t.assigned_to ∧
    (refreshUpdatedAtIfAbsent t now).status = t.status ∧
    (refreshUpdatedAtIfAbsent t now).is_deleted = t.is_deleted ∧
    (refreshUpdatedAtIfAbsent t now).created_at = t.created_at ∧
    (refreshUpdatedAtIfAbsent t now).sync_status = t.sync_status := by
  unfold refreshUpdatedAtIfAbsent
  split <;> simp

theorem backfillCreatedAt_fields (t : Task) :
    (backfillCreatedAt t).id = t.id ∧
    (backfillCreatedAt t).local_id = t.local_id ∧
    (backfillCreatedAt t).title = t.title ∧
    (backfillCreatedAt t).description = t.description ∧
    (backfillCreatedAt t).assigned_to = t.assigned_to ∧
    (backfillCreatedAt t).status = t.status ∧
    (backfillCreatedAt t).is_deleted = t.is_deleted ∧
    (backfillCreatedAt t).updated_at = t.updated_at ∧
    (backfillCreatedAt t).sync_status = t.sync_status := by
  unfold backfillCreatedAt
  split <;> simp

theorem defaultSyncStatus_fields (t : Task) :
    (defaultSyncStatus t).id = t.id ∧
    (defaultSyncStatus t).local_id = t.local_id ∧
    (defaultSyncStatus t).title = t.title ∧
    (defaultSyncStatus t).description = t.description ∧
    (defaultSyncStatus t).assigned_to = t.assigned_to ∧
    (defaultSyncStatus t).status = t.status ∧
    (defaultSyncStatus t).is_deleted = t.is_deleted ∧
    (defaultSyncStatus t).created_at = t.created_at ∧
    (defaultSyncStatus t).updated_at = t.updated_at := by
  unfold defaultSyncStatus
  split <;> simp

theorem bulkDefaultSyncStatus_fields (t : Task) :
    (bulkDefaultSyncStatus t).id = t.id ∧
    (bulkDefaultSyncStatus t).local_id = t.local_id ∧
    (bulkDefaultSyncStatus t).title = t.title ∧
    (bulkDefaultSyncStatus t).description = t.description ∧
    (bulkDefaultSyncStatus t).assigned_to = t.assigned_to ∧
    (bulkDefaultSyncStatus t).status = t.status ∧
    (bulkDefaultSyncStatus t).is_deleted = t.is_deleted ∧
    (bulkDefaultSyncStatus t).created_at = t.created_at ∧
    (bulkDefaultSyncStatus t).updated_at = t.updated_at := by
  unfold bulkDefaultSyncStatus
  dsimp only
  repeat' split
  all_goals simp

theorem bulkEnsureLocalId_fields (t : Task) (gen : String) :
    (bulkEnsureLocalId t gen).id = t.id ∧
    (bulkEnsureLocalId t gen).title = t.title ∧
    (bulkEnsureLocalId t gen).description = t.description ∧
    (bulkEnsureLocalId t gen).assigned_to = t.assigned_to ∧
    (bulkEnsureLocalId t gen).status = t.status ∧
    (bulkEnsureLocalId t gen).is_deleted = t.is_deleted ∧
    (bulkEnsureLocalId t gen).created_at = t.created_at ∧
    (bulkEnsureLocalId t gen).updated_at = t.updated_at ∧
    (bulkEnsureLocalId t gen).sync_status = t.sync_status := by
  unfold bulkEnsureLocalId
  split <;> simp

theorem markPendingCreate_sync_of_falsy (t : Task) (now : String)
    (h : strTruthy t.id = false) :
    (markPendingCreate t now).sync_status = some SyncStatus.pending_create := by
  unfold markPendingCreate
  dsimp only
  by_cases hs : t.sync_status = some SyncStatus.pending_create
  · rw [if_neg (by simp [hs])]
    exact hs
  · rw [if_pos ⟨h, hs⟩]
    split <;> simp

theorem defaultSyncStatus_keep (t : Task) (x : SyncStatus)
    (h : t.sync_status = some x) : (defaultSyncStatus t).sync_status = some x := by
  unfold defaultSyncStatus
  rw [if_neg (by simp [h])]
  exact h

theorem ensureLocalId_local_truthy (t : Task) (nowMs rand : String) :
    strTruthy (ensureLocalId t nowMs rand).local_id = true := by
  unfold ensureLocalId
  split
  · simp [strTruthy, synthLocalId_ne_empty]
  · next hblank =>
    cases hl : t.local_id with
    | none => rw [hl] at hblank; simp [localIdBlank] at hblank
    | some k =>
      rw [hl] at hblank
      simp only [localIdBlank, Bool.or_eq_true, decide_eq_true_eq, not_or] at hblank
      push_neg at hblank
      simp [strTruthy, hblank.1]

theorem consolidateLocalId_local_truthy (store : Store) (t : Task)
    (h : strTruthy t.local_id = true) :
    strTruthy (consolidateLocalId store t).local_id = true := by
  unfold consolidateLocalId
  repeat' split
  all_goals simp_all

theorem consolidateLocalId_hit (store : Store) (t : Task) (s : String) (ex : Task)
    (hid : t.id = some s) (hs : s ≠ "") (hfind : getFromIndexId store s = some ex)
    (hex : strTruthy ex.local_id = true) (hne : ex.local_id ≠ t.local_id) :
    (consolidateLocalId store t).local_id = ex.local_id := by
  simp only [consolidateLocalId, hid, hfind]
  rw [if_neg hs, if_pos ⟨hex, hne⟩]

theorem saveTaskRecord_local_eq (store : Store) (taskInput : Task)
    (nowMs rand now : String) :
    (saveTaskRecord store taskInput nowMs rand now).local_id =
      (consolidateLocalId store (ensureLocalId taskInput nowMs rand)).local_id := by
  unfold saveTaskRecord
  rw [(defaultSyncStatus_fields _).2.1, (backfillCreatedAt_fields _).2.1,
      (refreshUpdatedAt_fields _ _).2.1, (markPendingCreate_fields _ _).2.1]

theorem saveTaskRecord_local_truthy (store : Store) (taskInput : Task)
    (nowMs rand now : String) :
    strTruthy (saveTaskRecord store taskInput nowMs rand now).local_id = true := by
  rw [saveTaskRecord_local_eq]
  exact consolidateLocalId_local_truthy store _ (ensureLocalId_local_truthy taskInput nowMs rand)

theorem saveTaskRecord_domain (store : Store) (taskInput : Task)
    (nowMs rand now : String) :
    (saveTaskRecord store taskInput nowMs rand now).id = taskInput.id ∧
    (saveTaskRecord store taskInput nowMs rand now).title = taskInput.title ∧
    (saveTaskRecord store taskInput nowMs rand now).description = taskInput.description ∧
    (saveTaskRecord store taskInput nowMs rand now).assigned_to = taskInput.assigned_to ∧
    (saveTaskRecord store taskInput nowMs rand now).status = taskInput.status ∧
    (saveTaskRecord store taskInput nowMs rand now).is_deleted = taskInput.is_deleted := by
  unfold saveTaskRecord
  refine ⟨?_, ?_, ?_, ?_, ?_, ?_⟩
  · rw [(defaultSyncStatus_fields _).1, (backfillCreatedAt_fields _).1,
        (refreshUpdatedAt_fields _ _).1, (markPendingCreate_fields _ _).1,
        (consolidateLocalId_fields _ _).1, (ensureLocalId_fields _ _ _).1]
  · rw [(defaultSyncStatus_fields _).2.2.1, (backfillCreatedAt_fields _).2.2.1,
        (refreshUpdatedAt_fields _ _).2.2.1, (markPendingCreate_fields _ _).2.2.1,
        (consolidateLocalId_fields _ _).2.1, (ensureLocalId_fields _ _ _).2.1]
  · rw [(defaultSyncStatus_fields _).2.2.2.1, (backfillCreatedAt_fields _).2.2.2.1,
        (refreshUpdatedAt_fields _ _).2.2.2.1, (markPendingCreate_fields _ _).2.2.2.1,
        (consolidateLocalId_fields _ _).2.2.1, (ensureLocalId_fields _ _ _).2.2.1]
  · rw [(defaultSyncStatus_fields _).2.2.2.2.1, (backfillCreatedAt_fields _).2.2.2.2.1,
        (refreshUpdatedAt_fields _ _).2.2.2.2.1, (markPendingCreate_fields _ _).2.2.2.2.1,
        (consolidateLocalId_fields _ _).2.2.2.1, (ensureLocalId_fields _ _ _).2.2.2.1]
  · rw [(defaultSyncStatus_fields _).2.2.2.2.2.1, (backfillCreatedAt_fields _).2.2.2.2.2.1,
        (refreshUpdatedAt_fields _ _).2.2.2.2.2.1, (markPendingCreate_fields _ _).2.2.2.2.2.1,
        (consolidateLocalId_fields _ _).2.2.2.2.1, (ensureLocalId_fields _ _ _).2.2.2.2.1]
  · rw [(defaultSyncStatus_fields _).2.2.2.2.2.2.1, (backfillCreatedAt_fields _).2.2.2.2.2.2.1,
        (refreshUpdatedAt_fields _ _).2.2.2.2.2.2.1, (markPendingCreate_fields _ _).2.2.2.2.2.2.1,
        (consolidateLocalId_fields _ _).2.2.2.2.2.1, (ensureLocalId_fields _ _ _).2.2.2.2.2.1]

theorem saveTaskRecord_synced_imp (store : Store) (taskInput : Task)
    (nowMs rand now : String)
    (h : (saveTaskRecord store taskInput nowMs rand now).sync_status =
      some SyncStatus.synced) :
    strTruthy (saveTaskRecord store taskInput nowMs rand now).id = true := by
  by_cases hid :
      strTruthy (consolidateLocalId store (ensureLocalId taskInput nowMs rand)).id = true
  · have hr : (saveTaskRecord store taskInput nowMs rand now).id =
        (consolidateLocalId store (ensureLocalId taskInput nowMs rand)).id := by
      unfold saveTaskRecord
      rw [(defaultSyncStatus_fields _).1, (backfillCreatedAt_fields _).1,
          (refreshUpdatedAt_fields _ _).1, (markPendingCreate_fields _ _).1]
    rw [hr]
    exact hid
  · exfalso
    have hfalse :
        strTruthy (consolidateLocalId store (ensureLocalId taskInput nowMs rand)).id
          = false := by
      simpa using hid
    have hpend := markPendingCreate_sync_of_falsy
      (consolidateLocalId store (ensureLocalId taskInput nowMs rand)) now hfalse
    have hsync : (saveTaskRecord store taskInput nowMs rand now).sync_status =
        some SyncStatus.pending_create := by
      unfold saveTaskRecord
      apply defaultSyncStatus_keep
      rw [(backfillCreatedAt_fields _).2.2.2.2.2.2.2.2,
          (refreshUpdatedAt_fields _ _).2.2.2.2.2.2.2.2]
      exact hpend
    rw [h] at hsync
    simp at hsync

theorem bulkSaveRecord_local_eq (store : Store) (task : Task) (gen now : String) :
    (bulkSaveRecord store task gen now).local_id =
      (consolidateLocalId store (bulkEnsureLocalId task gen)).local_id := by
  unfold bulkSaveRecord
  rw [(bulkDefaultSyncStatus_fields _).2.1, (backfillCreatedAt_fields _).2.1,
      (refreshUpdatedAtIfAbsent_fields _ _).2.1]

theorem bulkSaveRecord_id (store : Store) (task : Task) (gen now : String) :
    (bulkSaveRecord store task gen now).id = task.id := by
  unfold bulkSaveRecord
  rw [(bulkDefaultSyncStatus_fields _).1, (backfillCreatedAt_fields _).1,
      (refreshUpdatedAtIfAbsent_fields _ _).1, (consolidateLocalId_fields _ _).1,
      (bulkEnsureLocalId_fields _ _).1]

theorem mergedAfterSync_sync_status (store : Store) (L : String) (sv : Task)
    (now : String) :
    (mergedAfterSync store L sv now).sync_status = some SyncStatus.synced := by
  unfold mergedAfterSync
  dsimp only
  repeat' split
  all_goals simp

theorem mergedAfterSync_local (store : Store) (L : String) (sv : Task) (now : String) :
    (mergedAfterSync store L sv now).local_id = some L := by
  unfold mergedAfterSync
  dsimp only
  repeat' split
  all_goals simp

theorem mergedAfterSync_id_of_truthy (store : Store) (L : String) (sv : Task)
    (now : String) (hsv : strTruthy sv.id = true) :
    (mergedAfterSync store L sv now).id = sv.id := by
  cases hs : sv.id with
  | none => rw [hs] at hsv; simp [strTruthy] at hsv
  | some s =>
    unfold mergedAfterSync
    dsimp only
    repeat' split
    all_goals simp [jsMerge, hs, Option.orElse]

theorem statusRecord_sync (task : Task) (L : String) (st : SyncStatus)
    (sid supd : Option String) (now : String) :
    (statusRecord task L st sid supd now).sync_status = some st := by
  unfold statusRecord
  dsimp only
  split <;> simp

theorem statusRecord_id (task : Task) (L : String) (st : SyncStatus)
    (sid supd : Option String) (now : String) :
    (statusRecord task L st sid supd now).id =
      (if strTruthy sid = true then sid else task.id) := by
  unfold statusRecord
  dsimp only
  split <;> simp_all

theorem wf_saveTask {store : Store} {taskInput : Task} {nowMs rand now : String}
    {st2 : Store} {rid : String}
    (hwf : WfStore store)
    (h : saveTask store taskInput nowMs rand now = .ok (st2, rid)) : WfStore st2 := by
  unfold saveTask at h
  dsimp only at h
  cases hput : putTask store (saveTaskRecord store taskInput nowMs rand now) with
  | error e => rw [hput] at h; simp [Except.map] at h
  | ok stp =>
    rw [hput] at h
    simp only [Except.map, Except.ok.injEq, Prod.mk.injEq] at h
    obtain ⟨h1, -⟩ := h
    rw [← h1]
    exact wf_putTask hwf hput

theorem wf_updateTaskAfterSync {store : Store} {L : String} {sv : Task} {now : String}
    {st2 : Store}
    (hwf : WfStore store)
    (h : updateTaskAfterSync store L sv now = .ok st2) : WfStore st2 := by
  unfold updateTaskAfterSync at h
  cases hct : conflictTarget store L sv with
  | none =>
    rw [hct] at h
    dsimp only at h
    exact wf_putTask hwf h
  | some ck =>
    rw [hct] at h
    dsimp only at h
    cases hput : putTask store (withLocalId (mergedAfterSync store L sv now) ck) with
    | error e => rw [hput] at h; simp at h
    | ok stp =>
      rw [hput] at h
      simp only [Except.ok.injEq] at h
      rw [← h]
      have hstp := wf_putTask hwf hput
      split
      · exact hstp
      · exact wf_deleteByKey hstp

theorem wf_bulkSaveAux {gen : Nat → String} {now : String} {ts : List Task}
    {i : Nat} {store st2 : Store}
    (hwf : WfStore store)
    (h : bulkSaveAux gen now ts i store = .ok st2) : WfStore st2 := by
  induction ts generalizing i store with
  | nil => simp only [bulkSaveAux, Except.ok.injEq] at h; rw [← h]; exact hwf
  | cons t ts ih =>
    simp only [bulkSaveAux] at h
    cases hstep : bulkSaveStep store t (gen i) now with
    | error e => rw [hstep] at h; simp at h
    | ok stp =>
      rw [hstep] at h
      exact ih (wf_putTask hwf hstep) h

theorem wf_bulkSaveTasks {store : Store} {tasks : List Task} {gen : Nat → String}
    {now : String} {st2 : Store}
    (hwf : WfStore store)
    (h : bulkSaveTasks store tasks gen now = .ok st2) : WfStore st2 :=
  wf_bulkSaveAux hwf h

theorem wf_updateLocalTaskStatus {store : Store} {L : String} {st : SyncStatus}
    {sid supd : Option String} {now : String} {st2 : Store}
    (hwf : WfStore store)
    (h : updateLocalTaskStatus store L st sid supd now = .ok st2) : WfStore st2 := by
  unfold updateLocalTaskStatus at h
  cases hf : store.find? (fun u => decide (u.local_id = some L)) with
  | none => rw [hf] at h; simp only [Except.ok.injEq] at h; rw [← h]; exact hwf
  | some task => rw [hf] at h; exact wf_putTask hwf h

theorem syncedHasId_saveTask {store : Store} {taskInput : Task}
    {nowMs rand now : String} {st2 : Store} {rid : String}
    (hinv : SyncedHasId store)
    (h : saveTask store taskInput nowMs rand now = .ok (st2, rid)) :
    SyncedHasId st2 := by
  unfold saveTask at h
  dsimp only at h
  cases hput : putTask store (saveTaskRecord store taskInput nowMs rand now) with
  | error e => rw [hput] at h; simp [Except.map] at h
  | ok stp =>
    rw [hput] at h
    simp only [Except.map, Except.ok.injEq, Prod.mk.injEq] at h
    obtain ⟨h1, -⟩ := h
    rw [← h1]
    exact syncedHasId_putTask hinv
      (fun hs => saveTaskRecord_synced_imp store taskInput nowMs rand now hs) hput

theorem syncedHasId_bulkSaveAux {gen : Nat → String} {now : String} {ts : List Task}
    {i : Nat} {store st2 : Store}
    (hinv : SyncedHasId store)
    (hids : ∀ u ∈ ts, strTruthy u.id = true)
    (h : bulkSaveAux gen now ts i store = .ok st2) : SyncedHasId st2 := by
  induction ts generalizing i store with
  | nil => simp only [bulkSaveAux, Except.ok.injEq] at h; rw [← h]; exact hinv
  | cons t ts ih =>
    simp only [bulkSaveAux] at h
    cases hstep : bulkSaveStep store t (gen i) now with
    | error e => rw [hstep] at h; simp at h
    | ok stp =>
      rw [hstep] at h
      have hstep2 : SyncedHasId stp := by
        refine syncedHasId_putTask hinv (fun _ => ?_) hstep
        rw [bulkSaveRecord_id]
        exact hids t (by simp)
      exact ih hstep2 (fun u hu => hids u (by simp [hu])) h

theorem syncedHasId_updateTaskAfterSync {store : Store} {L : String} {sv : Task}
    {now : String} {st2 : Store}
    (hinv : SyncedHasId store) (hsv : strTruthy sv.id = true)
    (h : updateTaskAfterSync store L sv now = .ok st2) : SyncedHasId st2 := by
  unfold updateTaskAfterSync at h
  cases hct : conflictTarget store L sv with
  | none =>
    rw [hct] at h
    dsimp only at h
    refine syncedHasId_putTask hinv (fun _ => ?_) h
    rw [mergedAfterSync_id_of_truthy store L sv now hsv]
    exact hsv
  | some ck =>
    rw [hct] at h
    dsimp only at h
    cases hput : putTask store (withLocalId (mergedAfterSync store L sv now) ck) with
    | error e => rw [hput] at h; simp at h
    | ok stp =>
      rw [hput] at h
      simp only [Except.ok.injEq] at h
      rw [← h]
      have hstp : SyncedHasId stp := by
        refine syncedHasId_putTask hinv (fun _ => ?_) hput
        show strTruthy (withLocalId (mergedAfterSync store L sv now) ck).id = true
        have hidw : (withLocalId (mergedAfterSync store L sv now) ck).id =
            (mergedAfterSync store L sv now).id := rfl
        rw [hidw, mergedAfterSync_id_of_truthy store L sv now hsv]
        exact hsv
      split
      · exact hstp
      · exact syncedHasId_deleteByKey hstp

theorem syncedHasId_updateLocalTaskStatus {store : Store} {L : String}
    {st : SyncStatus} {sid supd : Option String} {now : String} {st2 : Store}
    (hinv : SyncedHasId store)
    (hst : st = SyncStatus.synced → strTruthy sid = true)
    (h : updateLocalTaskStatus store L st sid supd now = .ok st2) : SyncedHasId st2 := by
  unfold updateLocalTaskStatus at h
  cases hf : store.find? (fun u => decide (u.local_id = some L)) with
  | none => rw [hf] at h; simp only [Except.ok.injEq] at h; rw [← h]; exact hinv
  | some task =>
    rw [hf] at h
    refine syncedHasId_putTask hinv (fun hs => ?_) h
    rw [statusRecord_sync] at hs
    have hsynced : st = SyncStatus.synced := by injection hs
    have hsid := hst hsynced
    rw [statusRecord_id]
    rw [if_pos hsid]
    exact hsid

/-!  Claim theorems.  -/

/-- C9: for every task T, a successful save(T) followed by getByLocalId on
the returned localId yields a record whose domain fields (title,
description, assignedTo, status, isDeleted) equal those of T. -/
theorem C9_save_roundtrip (store : Store) (T : Task) (nowMs rand now : String)
    (st2 : Store) (rid : String)
    (h : saveTask store T nowMs rand now = .ok (st2, rid)) :
    ∃ r, getTaskByLocalId st2 rid = some r ∧
      r.title = T.title ∧ r.description = T.description ∧
      r.assigned_to = T.assigned_to ∧ r.status = T.status ∧
      r.is_deleted = T.is_deleted := by
  unfold saveTask at h
  dsimp only at h
  cases hput : putTask store (saveTaskRecord store T nowMs rand now) with
  | error e => rw [hput] at h; simp [Except.map] at h
  | ok stp =>
    rw [hput] at h
    simp only [Except.map, Except.ok.injEq, Prod.mk.injEq] at h
    obtain ⟨h1, h2⟩ := h
    obtain ⟨k, hl, hupd, -⟩ := putTask_ok_elim hput
    have htr := saveTaskRecord_local_truthy store T nowMs rand now
    rw [hl] at htr
    have hkne : k ≠ "" := by simpa [strTruthy] using htr
    have hrid : rid = k := by rw [← h2, hl]; rfl
    obtain ⟨hd1, hd2, hd3, hd4, hd5, hd6⟩ := saveTaskRecord_domain store T nowMs rand now
    refine ⟨saveTaskRecord store T nowMs rand now, ?_, hd2, hd3, hd4, hd5, hd6⟩
    rw [← h1, hupd, getTaskByLocalId, hrid, if_neg hkne]
    exact find?_upsert_self store k _ hl

/-- Witness for C9 at a concrete input: saving a fresh task into the empty
store and reading it back through the returned local id. -/
theorem C9_witness :
    ∃ r, getTaskByLocalId
        [{ id := none, local_id := some "local_new_0_r", title := "Buy milk",
           description := none, assigned_to := none, status := TaskStatus.pending,
           is_deleted := none, created_at := some "T0", updated_at := some "T0",
           sync_status := some SyncStatus.pending_create }] "local_new_0_r" = some r ∧
      r.title = "Buy milk" ∧ r.description = none ∧
      r.assigned_to = none ∧ r.status = TaskStatus.pending ∧
      r.is_deleted = none :=
  C9_save_roundtrip [] { title := "Buy milk", status := TaskStatus.pending }
    "0" "r" "T0"
    [{ id := none, local_id := some "local_new_0_r", title := "Buy milk",
       description := none, assigned_to := none, status := TaskStatus.pending,
       is_deleted := none, created_at := some "T0", updated_at := some "T0",
       sync_status := some SyncStatus.pending_create }] "local_new_0_r"
    (by rfl)

/-- C5: a synchronize call that passes the reentrancy guard leaves the
syncing flag false on every exit path, and always returns a structured
result (success, or failure with an error value) rather than an
exception. -/
theorem C5_flag_reset_structured_result (env : SyncEnv) (force : Bool) (st : SyncState)
    (h : st.isSyncing = false) :
    (synchronize env force st).2.isSyncing = false ∧
    ((synchronize env force st).1.success = true ∨
      (synchronize env force st).1.error.isSome = true) := by
  unfold synchronize
  by_cases ho : env.online = false
  · rw [if_pos ho]
    simp [h]
  · rw [if_neg ho, if_neg (by simp [h])]
    dsimp only
    cases env.fetch (if force then none else st.lastSync) with
    | thrownMsg e => simp
    | errField e => simp
    | okTasks ts =>
      dsimp only
      split
      · cases hbulk : bulkSaveTasks (pushPhase env (getPendingChanges st.store) st.store)
            ts env.gen env.now with
        | ok stb => simp
        | error e => simp
      · simp

/-- Witness for C5 at a concrete environment and state. -/
theorem C5_witness :
    ((synchronize
        { online := true, push := fun _ => PushCallOutcome.failMsg "x",
          fetch := fun _ => FetchOutcome.errField "y", gen := fun _ => "g",
          now := "T" } false
        { store := [], isSyncing := false, lastSync := none }).2.isSyncing = false) ∧
    (((synchronize
        { online := true, push := fun _ => PushCallOutcome.failMsg "x",
          fetch := fun _ => FetchOutcome.errField "y", gen := fun _ => "g",
          now := "T" } false
        { store := [], isSyncing := false, lastSync := none }).1.success = true) ∨
      ((synchronize
        { online := true, push := fun _ => PushCallOutcome.failMsg "x",
          fetch := fun _ => FetchOutcome.errField "y", gen := fun _ => "g",
          now := "T" } false
        { store := [], isSyncing := false, lastSync := none }).1.error.isSome = true)) :=
  C5_flag_reset_structured_result
    { online := true, push := fun _ => PushCallOutcome.failMsg "x",
      fetch := fun _ => FetchOutcome.errField "y", gen := fun _ => "g", now := "T" }
    false { store := [], isSyncing := false, lastSync := none } (by rfl)

/-- C10: when the pull-phase fetch returns a structured error while the
guards passed, synchronize still advances the watermark to the current
time and returns a success result. -/
theorem C10_pull_error_still_success (env : SyncEnv) (st : SyncState) (e : String)
    (h1 : st.isSyncing = false) (h2 : env.online = true)
    (h3 : env.fetch st.lastSync = FetchOutcome.errField e) :
    (synchronize env false st).1.success = true ∧
    (synchronize env false st).2.lastSync = some env.now := by
  unfold synchronize
  rw [if_neg (by simp [h2]), if_neg (by simp [h1])]
  simp [h3]

/-- Witness for C10 at a concrete environment and state. -/
theorem C10_witness :
    ((synchronize
        { online := true, push := fun _ => PushCallOutcome.failMsg "x",
          fetch := fun _ => FetchOutcome.errField "down", gen := fun _ => "g",
          now := "T7" } false
        { store := [], isSyncing := false, lastSync := some "T1" }).1.success = true) ∧
    ((synchronize
        { online := true, push := fun _ => PushCallOutcome.failMsg "x",
          fetch := fun _ => FetchOutcome.errField "down", gen := fun _ => "g",
          now := "T7" } false
        { store := [], isSyncing := false, lastSync := some "T1" }).2.lastSync = some "T7") :=
  C10_pull_error_still_success
    { online := true, push := fun _ => PushCallOutcome.failMsg "x",
      fetch := fun _ => FetchOutcome.errField "down", gen := fun _ => "g", now := "T7" }
    { store := [], isSyncing := false, lastSync := some "T1" } "down"
    (by rfl) (by rfl) (by rfl)

/-- Counterexample to C6 as stated: with the syncing flag already true but
connectivity down, synchronize returns the Offline failure result, not the
Busy one — the connectivity guard runs first. -/
theorem C6_counterexample :
    ({ store := [], isSyncing := true, lastSync := none } : SyncState).isSyncing = true ∧
    (synchronize
        { online := false, push := fun _ => PushCallOutcome.failMsg "x",
          fetch := fun _ => FetchOutcome.errField "y", gen := fun _ => "g", now := "T" }
        false
        { store := [], isSyncing := true, lastSync := none }).1.error =
      some "Offline" ∧
    some "Offline" ≠ some "Sync in progress" := by
  refine ⟨rfl, rfl, by decide⟩

/-- C6 amended: a synchronize call made while a pass is running returns a
Busy failure result when the connectivity check passes (and an Offline
failure result when it does not); in either case the call leaves the
whole state — store, watermark, and the running flag — untouched. -/
theorem C6_amended_busy_noop (env : SyncEnv) (force : Bool) (st : SyncState)
    (hs : st.isSyncing = true) :
    (env.online = true →
      synchronize env force st =
        ({ success := false, updatedTasks := none, error := some "Sync in progress" }, st)) ∧
    (env.online = false →
      synchronize env force st =
        ({ success := false, updatedTasks := none, error := some "Offline" }, st)) := by
  constructor
  · intro ho
    unfold synchronize
    rw [if_neg (by simp [ho]), if_pos hs]
  · intro ho
    unfold synchronize
    rw [if_pos ho]

/-- Witness for the amended C6 at a concrete busy state. -/
theorem C6_witness :
    synchronize
        { online := true, push := fun _ => PushCallOutcome.failMsg "x",
          fetch := fun _ => FetchOutcome.errField "y", gen := fun _ => "g", now := "T" }
        false
        { store := [], isSyncing := true, lastSync := some "W" } =
      ({ success := false, updatedTasks := none, error := some "Sync in progress" },
       { store := [], isSyncing := true, lastSync := some "W" }) :=
  (C6_amended_busy_noop
    { online := true, push := fun _ => PushCallOutcome.failMsg "x",
      fetch := fun _ => FetchOutcome.errField "y", gen := fun _ => "g", now := "T" }
    false { store := [], isSyncing := true, lastSync := some "W" } (by rfl)).1 (by rfl)

/-- Counterexample to C7 as stated: a pending_create record that carries a
server id is not dispatched as a create — the code additionally requires
the id to be absent, and returns a failure without any gateway call. -/
theorem C7_counterexample :
    ({ sync_status := some SyncStatus.pending_create, id := some "srv-1",
       title := "Tarea", status := TaskStatus.pending } : Task).sync_status =
      some SyncStatus.pending_create ∧
    (syncPendingDispatch
      { sync_status := some SyncStatus.pending_create, id := some "srv-1",
        title := "Tarea", status := TaskStatus.pending }).isCreate = false := by
  refine ⟨rfl, by decide⟩

/-- C7 amended: the gateway operation is chosen by sync status gated on the
presence of the server id — pending_create with no truthy id maps to a
create, pending_update and pending_delete with a truthy id map to update
and soft-delete on that id, and every other combination makes no gateway
call and yields the invalid failure; each payload is built from the domain
fields only. -/
theorem C7_amended_dispatch (t : Task) :
    (t.sync_status = some SyncStatus.pending_create → strTruthy t.id = false →
      syncPendingDispatch t = GatewayCall.createCall
        { title := t.title, description := t.description,
          assigned_to := t.assigned_to, status := t.status }) ∧
    (∀ s, t.sync_status = some SyncStatus.pending_update → t.id = some s → s ≠ "" →
      syncPendingDispatch t = GatewayCall.updateCall s
        { title := t.title, description := t.description,
          assigned_to := t.assigned_to, status := t.status,
          is_deleted := t.is_deleted }) ∧
    (∀ s, t.sync_status = some SyncStatus.pending_delete → t.id = some s → s ≠ "" →
      syncPendingDispatch t = GatewayCall.softDeleteCall s) ∧
    ((t.sync_status = some SyncStatus.pending_create ∧ strTruthy t.id = true) →
      syncPendingDispatch t = GatewayCall.invalid "Invalid sync_status or missing ID") ∧
    ((t.sync_status = some SyncStatus.pending_update ∧ strTruthy t.id = false) →
      syncPendingDispatch t = GatewayCall.invalid "Invalid sync_status or missing ID") ∧
    ((t.sync_status = some SyncStatus.pending_delete ∧ strTruthy t.id = false) →
      syncPendingDispatch t = GatewayCall.invalid "Invalid sync_status or missing ID") ∧
    ((t.sync_status = none ∨ t.sync_status = some SyncStatus.synced) →
      syncPendingDispatch t = GatewayCall.invalid "Invalid sync_status or missing ID") := by
  refine ⟨?_, ?_, ?_, ?_, ?_, ?_, ?_⟩
  · intro hsy hid
    unfold syncPendingDispatch
    rw [if_pos ⟨hsy, hid⟩]
  · intro s hsy hid hs
    have htr : strTruthy t.id = true := by rw [hid]; simp [strTruthy, hs]
    unfold syncPendingDispatch
    rw [if_neg (by simp [hsy]), if_pos ⟨hsy, htr⟩]
    rw [hid]
    rfl
  · intro s hsy hid hs
    have htr : strTruthy t.id = true := by rw [hid]; simp [strTruthy, hs]
    unfold syncPendingDispatch
    rw [if_neg (by simp [hsy]), if_neg (by simp [hsy]), if_pos ⟨hsy, htr⟩]
    rw [hid]
    rfl
  · rintro ⟨hsy, hid⟩
    unfold syncPendingDispatch
    rw [if_neg (by simp [hid]), if_neg (by simp [hsy]), if_neg (by simp [hsy])]
  · rintro ⟨hsy, hid⟩
    unfold syncPendingDispatch
    rw [if_neg (by simp [hsy]), if_neg (by simp [hid]), if_neg (by simp [hsy])]
  · rintro ⟨hsy, hid⟩
    unfold syncPendingDispatch
    rw [if_neg (by simp [hsy]), if_neg (by simp [hsy]), if_neg (by simp [hid])]
  · intro hsy
    rcases hsy with hsy | hsy <;>
      (unfold syncPendingDispatch
       rw [if_neg (by simp [hsy]), if_neg (by simp [hsy]), if_neg (by simp [hsy])])

/-- Witness for the amended C7 at a concrete pending_update task. -/
theorem C7_witness :
    syncPendingDispatch
        { id := some "srv-2", sync_status := some SyncStatus.pending_update,
          title := "Tarea", description := some "d", assigned_to := some "Ana",
          status := TaskStatus.in_progress, is_deleted := some false } =
      GatewayCall.updateCall "srv-2"
        { title := "Tarea", description := some "d", assigned_to := some "Ana",
          status := TaskStatus.in_progress, is_deleted := some false } :=
  (C7_amended_dispatch
    { id := some "srv-2", sync_status := some SyncStatus.pending_update,
      title := "Tarea", description := some "d", assigned_to := some "Ana",
      status := TaskStatus.in_progress, is_deleted := some false }).2.1
    "srv-2" (by rfl) (by rfl) (by decide)

theorem localIdBlank_false_ne {k : String} (h : localIdBlank (some k) = false) :
    k ≠ "" := by
  simp only [localIdBlank, Bool.or_eq_false_iff, decide_eq_false_iff_not] at h
  exact h.1

theorem saveTaskRecord_consolidated {store : Store} {t : Task}
    (nowMs rand now : String) {k s m : String} {ex : Task}
    (hid : t.id = some s) (hs : s ≠ "")
    (hlk : t.local_id = some k) (hkblank : localIdBlank (some k) = false)
    (hfind : getFromIndexId store s = some ex)
    (hexl : ex.local_id = some m) (hm : m ≠ "") (hmk : m ≠ k) :
    (saveTaskRecord store t nowMs rand now).local_id = some m := by
  rw [saveTaskRecord_local_eq]
  have he : ensureLocalId t nowMs rand = t := by
    unfold ensureLocalId
    rw [hlk]
    rw [if_neg (by simp [hkblank])]
  rw [he]
  rw [consolidateLocalId_hit store t s ex hid hs hfind
    (by rw [hexl]; simp [strTruthy, hm]) (by rw [hexl, hlk]; simp [hmk])]
  exact hexl

theorem bulkSaveRecord_consolidated {store : Store} {t : Task}
    (gen now : String) {k s m : String} {ex : Task}
    (hid : t.id = some s) (hs : s ≠ "")
    (hlk : t.local_id = some k) (hkne : k ≠ "")
    (hfind : getFromIndexId store s = some ex)
    (hexl : ex.local_id = some m) (hm : m ≠ "") (hmk : m ≠ k) :
    (bulkSaveRecord store t gen now).local_id = some m := by
  rw [bulkSaveRecord_local_eq]
  have he : bulkEnsureLocalId t gen = t := by
    unfold bulkEnsureLocalId
    rw [hlk]
    rw [if_neg (by simp [strTruthy, hkne])]
  rw [he]
  rw [consolidateLocalId_hit store t s ex hid hs hfind
    (by rw [hexl]; simp [strTruthy, hm]) (by rw [hexl, hlk]; simp [hmk])]
  exact hexl

theorem putRecord_consolidated_ok {store : Store} {r : Task} {s m : String} {ex : Task}
    (hwf : WfStore store)
    (hrid : r.id = some s)
    (hrl : r.local_id = some m)
    (hfind : getFromIndexId store s = some ex)
    (hexl : ex.local_id = some m) :
    putTask store r = .ok (upsert store m r) := by
  refine putTask_ok_of_unique hrl hrid ?_
  intro u hu hus
  have hexmem : ex ∈ store := List.mem_of_find?_eq_some hfind
  have hexs : ex.id = some s := by
    have := List.find?_some hfind; simpa using this
  have hue : u = ex := id_unique hwf.2.2 hu hexmem hus hexs
  rw [hue, hexl]

theorem saveTask_consolidates {store : Store} {t : Task}
    (nowMs rand now : String) {k s m : String} {ex : Task}
    (hwf : WfStore store)
    (hid : t.id = some s) (hs : s ≠ "")
    (hlk : t.local_id = some k) (hkblank : localIdBlank (some k) = false)
    (hfind : getFromIndexId store s = some ex)
    (hexl : ex.local_id = some m) (hm : m ≠ "") (hmk : m ≠ k) :
    saveTask store t nowMs rand now =
      .ok (upsert store m (saveTaskRecord store t nowMs rand now), m) := by
  have hrl := saveTaskRecord_consolidated nowMs rand now
    hid hs hlk hkblank hfind hexl hm hmk
  have hrid : (saveTaskRecord store t nowMs rand now).id = some s := by
    rw [(saveTaskRecord_domain store t nowMs rand now).1, hid]
  have hput := putRecord_consolidated_ok hwf hrid hrl hfind hexl
  unfold saveTask
  dsimp only
  rw [hput]
  simp [Except.map, hrl]

theorem bulkSingle_consolidates {store : Store} {t : Task}
    (now : String) (gen : Nat → String) {k s m : String} {ex : Task}
    (hwf : WfStore store)
    (hid : t.id = some s) (hs : s ≠ "")
    (hlk : t.local_id = some k) (hkne : k ≠ "")
    (hfind : getFromIndexId store s = some ex)
    (hexl : ex.local_id = some m) (hm : m ≠ "") (hmk : m ≠ k) :
    bulkSaveTasks store [t] gen now =
      .ok (upsert store m (bulkSaveRecord store t (gen 0) now)) := by
  have hrl := bulkSaveRecord_consolidated (gen 0) now
    hid hs hlk hkne hfind hexl hm hmk
  have hrid : (bulkSaveRecord store t (gen 0) now).id = some s := by
    rw [bulkSaveRecord_id, hid]
  have hput := putRecord_consolidated_ok hwf hrid hrl hfind hexl
  unfold bulkSaveTasks bulkSaveAux bulkSaveStep
  rw [hput]
  rfl

/-- C2: when the input carries a truthy server id already stored under a
different truthy local id, saveTask persists the record under the stored
local id, writing nothing under the input local id; and every successful
saveTask preserves store well-formedness — in particular at most one
record per server id, so any sequence of saves keeps that invariant. -/
theorem C2_save_consolidation_unique_serverId (store : Store) (input : Task)
    (nowMs rand now k s m : String) (ex : Task)
    (hwf : WfStore store) :
    ((input.id = some s → s ≠ "" → input.local_id = some k →
      localIdBlank (some k) = false →
      getFromIndexId store s = some ex → ex.local_id = some m → m ≠ "" → m ≠ k →
      ∃ st2, saveTask store input nowMs rand now = .ok (st2, m) ∧
        (getTaskByLocalId st2 m).isSome = true ∧
        getTaskByLocalId st2 k = getTaskByLocalId store k)) ∧
    (∀ st2 rid, saveTask store input nowMs rand now = .ok (st2, rid) → WfStore st2) := by
  constructor
  · intro hid hs hlk hkblank hfind hexl hm hmk
    have heq := saveTask_consolidates nowMs rand now
      hwf hid hs hlk hkblank hfind hexl hm hmk
    have hrl := saveTaskRecord_consolidated nowMs rand now
      hid hs hlk hkblank hfind hexl hm hmk
    refine ⟨upsert store m (saveTaskRecord store input nowMs rand now), heq, ?_, ?_⟩
    · simp only [getTaskByLocalId, if_neg hm]
      rw [find?_upsert_self store m _ hrl]
      rfl
    · have hkne := localIdBlank_false_ne hkblank
      simp only [getTaskByLocalId, if_neg hkne]
      exact find?_upsert_other store m k _ hrl (fun he => hmk he.symm)
  · intro st2 rid h
    exact wf_saveTask hwf h

/-- Witness for C2: a store holding one synced record under local id B and
server id s1, and a save of the same server entity under local id A. -/
theorem C2_witness :
    ∃ st2,
      saveTask
        [{ local_id := some "B", id := some "s1", title := "b",
           status := TaskStatus.completed, sync_status := some SyncStatus.synced,
           created_at := some "C", updated_at := some "U" }]
        { local_id := some "A", id := some "s1", title := "t",
          status := TaskStatus.pending }
        "0" "r" "T0" = .ok (st2, "B") ∧
      (getTaskByLocalId st2 "B").isSome = true ∧
      getTaskByLocalId st2 "A" =
        getTaskByLocalId
          [{ local_id := some "B", id := some "s1", title := "b",
             status := TaskStatus.completed, sync_status := some SyncStatus.synced,
             created_at := some "C", updated_at := some "U" }] "A" :=
  (C2_save_consolidation_unique_serverId
    [{ local_id := some "B", id := some "s1", title := "b",
       status := TaskStatus.completed, sync_status := some SyncStatus.synced,
       created_at := some "C", updated_at := some "U" }]
    { local_id := some "A", id := some "s1", title := "t",
      status := TaskStatus.pending }
    "0" "r" "T0" "A" "s1" "B"
    { local_id := some "B", id := some "s1", title := "b",
      status := TaskStatus.completed, sync_status := some SyncStatus.synced,
      created_at := some "C", updated_at := some "U" }
    (by decide)).1
    rfl (by decide) rfl (by decide) rfl rfl (by decide) (by decide)

/-- Counterexample to C3 as stated: for a task that already carries an
updated_at, saveTask refreshes the timestamp to the current time while a
single-element bulkSaveTasks keeps the old one, so the two stores
differ. -/
theorem C3_counterexample :
    bulkSaveTasks []
        [{ id := some "srv1", local_id := some "A", title := "abc",
           status := TaskStatus.pending, updated_at := some "T1",
           created_at := some "T0", sync_status := some SyncStatus.synced }]
        (fun _ => "g") "T2" =
      .ok [{ id := some "srv1", local_id := some "A", title := "abc",
             status := TaskStatus.pending, updated_at := some "T1",
             created_at := some "T0", sync_status := some SyncStatus.synced }] ∧
    saveTask []
        { id := some "srv1", local_id := some "A", title := "abc",
          status := TaskStatus.pending, updated_at := some "T1",
          created_at := some "T0", sync_status := some SyncStatus.synced }
        "ms" "rnd" "T2" =
      .ok ([{ id := some "srv1", local_id := some "A", title := "abc",
              status := TaskStatus.pending, updated_at := some "T2",
              created_at := some "T0", sync_status := some SyncStatus.synced }], "A") ∧
    ([{ id := some "srv1", local_id := some "A", title := "abc",
        status := TaskStatus.pending, updated_at := some "T1",
        created_at := some "T0", sync_status := some SyncStatus.synced }] : Store) ≠
      [{ id := some "srv1", local_id := some "A", title := "abc",
         status := TaskStatus.pending, updated_at := some "T2",
         created_at := some "T0", sync_status := some SyncStatus.synced }] :=
  ⟨rfl, rfl, by decide⟩

/-- C3 amended: bulkSaveTasks applies the same consolidation rule as
saveTask — a single-element batch whose task carries a truthy server id
already stored under a different truthy local id is persisted under that
stored local id, exactly as saveTask does, leaving the input local id
unwritten — but the timestamp and status rules differ (bulkSaveTasks only
backfills updated_at when absent and never marks id-less records
pending_create), so the two resulting stores need not be equal. -/
theorem C3_amended_consolidation_agreement (store : Store) (t : Task)
    (nowMs rand now k s m : String) (ex : Task) (gen : Nat → String)
    (hwf : WfStore store)
    (hid : t.id = some s) (hs : s ≠ "")
    (hlk : t.local_id = some k) (hkblank : localIdBlank (some k) = false)
    (hfind : getFromIndexId store s = some ex)
    (hexl : ex.local_id = some m) (hm : m ≠ "") (hmk : m ≠ k) :
    (∃ st2, saveTask store t nowMs rand now = .ok (st2, m) ∧
      (getTaskByLocalId st2 m).isSome = true ∧
      getTaskByLocalId st2 k = getTaskByLocalId store k) ∧
    (∃ st3, bulkSaveTasks store [t] gen now = .ok st3 ∧
      (getTaskByLocalId st3 m).isSome = true ∧
      getTaskByLocalId st3 k = getTaskByLocalId store k) := by
  have hkne := localIdBlank_false_ne hkblank
  constructor
  · have heq := saveTask_consolidates nowMs rand now
      hwf hid hs hlk hkblank hfind hexl hm hmk
    have hrl := saveTaskRecord_consolidated nowMs rand now
      hid hs hlk hkblank hfind hexl hm hmk
    refine ⟨upsert store m (saveTaskRecord store t nowMs rand now), heq, ?_, ?_⟩
    · simp only [getTaskByLocalId, if_neg hm]
      rw [find?_upsert_self store m _ hrl]
      rfl
    · simp only [getTaskByLocalId, if_neg hkne]
      exact find?_upsert_other store m k _ hrl (fun he => hmk he.symm)
  · have heq := bulkSingle_consolidates now gen
      hwf hid hs hlk hkne hfind hexl hm hmk
    have hrl := bulkSaveRecord_consolidated (gen 0) now
      hid hs hlk hkne hfind hexl hm hmk
    refine ⟨upsert store m (bulkSaveRecord store t (gen 0) now), heq, ?_, ?_⟩
    · simp only [getTaskByLocalId, if_neg hm]
      rw [find?_upsert_self store m _ hrl]
      rfl
    · simp only [getTaskByLocalId, if_neg hkne]
      exact find?_upsert_other store m k _ hrl (fun he => hmk he.symm)

/-- Witness for the amended C3 at the same concrete consolidation
scenario. -/
theorem C3_witness :
    (∃ st2,
      saveTask
        [{ local_id := some "B", id := some "s1", title := "b",
           status := TaskStatus.completed, sync_status := some SyncStatus.synced,
           created_at := some "C", updated_at := some "U" }]
        { local_id := some "A", id := some "s1", title := "t",
          status := TaskStatus.pending }
        "0" "r" "T9" = .ok (st2, "B") ∧
      (getTaskByLocalId st2 "B").isSome = true ∧
      getTaskByLocalId st2 "A" =
        getTaskByLocalId
          [{ local_id := some "B", id := some "s1", title := "b",
             status := TaskStatus.completed, sync_status := some SyncStatus.synced,
             created_at := some "C", updated_at := some "U" }] "A") ∧
    (∃ st3,
      bulkSaveTasks
        [{ local_id := some "B", id := some "s1", title := "b",
           status := TaskStatus.completed, sync_status := some SyncStatus.synced,
           created_at := some "C", updated_at := some "U" }]
        [{ local_id := some "A", id := some "s1", title := "t",
           status := TaskStatus.pending }]
        (fun _ => "g") "T9" = .ok st3 ∧
      (getTaskByLocalId st3 "B").isSome = true ∧
      getTaskByLocalId st3 "A" =
        getTaskByLocalId
          [{ local_id := some "B", id := some "s1", title := "b",
             status := TaskStatus.completed, sync_status := some SyncStatus.synced,
             created_at := some "C", updated_at := some "U" }] "A") :=
  C3_amended_consolidation_agreement
    [{ local_id := some "B", id := some "s1", title := "b",
       status := TaskStatus.completed, sync_status := some SyncStatus.synced,
       created_at := some "C", updated_at := some "U" }]
    { local_id := some "A", id := some "s1", title := "t",
      status := TaskStatus.pending }
    "0" "r" "T9" "A" "s1" "B"
    { local_id := some "B", id := some "s1", title := "b",
      status := TaskStatus.completed, sync_status := some SyncStatus.synced,
      created_at := some "C", updated_at := some "U" }
    (fun _ => "g")
    (by decide) rfl (by decide) rfl (by decide) rfl rfl (by decide) (by decide)

/-- C1: reconcileAfterSync (updateTaskAfterSync) under a true identity
conflict — the server id of the incoming record already stored under a
different local id B — writes the merged record (the prior record under A
overlaid by the server record, syncStatus synced) under B and physically
deletes the record under A. -/
theorem C1_reconcile_conflict_consolidates (store : Store) (A B : String)
    (sv : Task) (now s : String) (tB : Task)
    (hwf : WfStore store)
    (hA : A ≠ "") (hB : B ≠ "") (hBA : B ≠ A)
    (hsv : sv.id = some s) (hs : s ≠ "")
    (hfind : getFromIndexId store s = some tB)
    (htB : tB.local_id = some B) :
    ∃ st2, updateTaskAfterSync store A sv now = .ok st2 ∧
      getTaskByLocalId st2 A = none ∧
      getTaskByLocalId st2 B =
        some (withLocalId (mergedAfterSync store A sv now) B) ∧
      (withLocalId (mergedAfterSync store A sv now) B).sync_status =
        some SyncStatus.synced := by
  have hct : conflictTarget store A sv = some B := by
    simp only [conflictTarget, hsv, hfind]
    rw [if_neg hs,
      if_pos ⟨by rw [htB]; simp [strTruthy, hB], by rw [htB]; simp [hBA]⟩]
    exact htB
  have hrl : (withLocalId (mergedAfterSync store A sv now) B).local_id = some B := rfl
  have hrid : (withLocalId (mergedAfterSync store A sv now) B).id = some s := by
    show (mergedAfterSync store A sv now).id = some s
    rw [mergedAfterSync_id_of_truthy store A sv now (by rw [hsv]; simp [strTruthy, hs])]
    exact hsv
  have hput := putRecord_consolidated_ok hwf hrid hrl hfind htB
  refine ⟨deleteByKey (upsert store B (withLocalId (mergedAfterSync store A sv now) B)) A,
    ?_, ?_, ?_, ?_⟩
  · unfold updateTaskAfterSync
    rw [hct]
    dsimp only
    rw [hput]
    dsimp only
    rw [if_neg hA]
  · simp only [getTaskByLocalId, if_neg hA]
    exact find?_deleteByKey_self _ A
  · simp only [getTaskByLocalId, if_neg hB]
    rw [find?_deleteByKey_other _ A B hBA]
    exact find?_upsert_self store B _ hrl
  · show (mergedAfterSync store A sv now).sync_status = some SyncStatus.synced
    exact mergedAfterSync_sync_status store A sv now

/-- Witness for C1: a two-record store where the incoming server record
for local_A already exists under local_B. -/
theorem C1_witness :
    ∃ st2,
      updateTaskAfterSync
        [{ local_id := some "local_B", id := some "srv-9", title := "b",
           status := TaskStatus.completed, sync_status := some SyncStatus.synced,
           created_at := some "C0" },
         { local_id := some "local_A", id := none, title := "a",
           status := TaskStatus.pending,
           sync_status := some SyncStatus.pending_create, created_at := some "CA" }]
        "local_A"
        { id := some "srv-9", title := "merged", status := TaskStatus.in_progress,
          updated_at := some "U9", created_at := some "C9",
          sync_status := some SyncStatus.synced }
        "NOW" = .ok st2 ∧
      getTaskByLocalId st2 "local_A" = none ∧
      getTaskByLocalId st2 "local_B" =
        some (withLocalId
          (mergedAfterSync
            [{ local_id := some "local_B", id := some "srv-9", title := "b",
               status := TaskStatus.completed, sync_status := some SyncStatus.synced,
               created_at := some "C0" },
             { local_id := some "local_A", id := none, title := "a",
               status := TaskStatus.pending,
               sync_status := some SyncStatus.pending_create,
               created_at := some "CA" }]
            "local_A"
            { id := some "srv-9", title := "merged",
              status := TaskStatus.in_progress, updated_at := some "U9",
              created_at := some "C9", sync_status := some SyncStatus.synced }
            "NOW") "local_B") ∧
      (withLocalId
        (mergedAfterSync
          [{ local_id := some "local_B", id := some "srv-9", title := "b",
             status := TaskStatus.completed, sync_status := some SyncStatus.synced,
             created_at := some "C0" },
           { local_id := some "local_A", id := none, title := "a",
             status := TaskStatus.pending,
             sync_status := some SyncStatus.pending_create,
             created_at := some "CA" }]
          "local_A"
          { id := some "srv-9", title := "merged",
            status := TaskStatus.in_progress, updated_at := some "U9",
            created_at := some "C9", sync_status := some SyncStatus.synced }
          "NOW") "local_B").sync_status = some SyncStatus.synced :=
  C1_reconcile_conflict_consolidates
    [{ local_id := some "local_B", id := some "srv-9", title := "b",
       status := TaskStatus.completed, sync_status := some SyncStatus.synced,
       created_at := some "C0" },
     { local_id := some "local_A", id := none, title := "a",
       status := TaskStatus.pending,
       sync_status := some SyncStatus.pending_create, created_at := some "CA" }]
    "local_A" "local_B"
    { id := some "srv-9", title := "merged", status := TaskStatus.in_progress,
      updated_at := some "U9", created_at := some "C9",
      sync_status := some SyncStatus.synced }
    "NOW" "srv-9"
    { local_id := some "local_B", id := some "srv-9", title := "b",
      status := TaskStatus.completed, sync_status := some SyncStatus.synced,
      created_at := some "C0" }
    (by decide) (by decide) (by decide) (by decide) rfl (by decide) rfl rfl

/-- Counterexample to C4 as stated: bulkSaveTasks of a single id-less task
into the empty store produces a record with syncStatus synced and no
server id, violating the invariant. -/
theorem C4_counterexample :
    bulkSaveTasks [] [{ title := "x", status := TaskStatus.pending }]
        (fun _ => "L1") "T1" =
      .ok [{ id := none, local_id := some "L1", title := "x",
             status := TaskStatus.pending, created_at := some "T1",
             updated_at := some "T1", sync_status := some SyncStatus.synced }] ∧
    ¬ SyncedHasId
        [{ id := none, local_id := some "L1", title := "x",
           status := TaskStatus.pending, created_at := some "T1",
           updated_at := some "T1", sync_status := some SyncStatus.synced }] :=
  ⟨rfl, by decide⟩

/-- C4 amended: the synced-implies-serverId invariant is preserved by
saveTask unconditionally; by bulkSaveTasks when every task of the batch
carries a truthy server id (as server pages do); by reconcileAfterSync
when the server record carries a truthy server id; and by setStatus when a
transition to synced supplies a truthy server id. -/
theorem C4_amended_invariant_preservation :
    (∀ (store : Store) (input : Task) (nowMs rand now : String) (st2 : Store)
        (rid : String), SyncedHasId store →
        saveTask store input nowMs rand now = .ok (st2, rid) → SyncedHasId st2) ∧
    (∀ (store : Store) (tasks : List Task) (gen : Nat → String) (now : String)
        (st2 : Store), SyncedHasId store → (∀ u ∈ tasks, strTruthy u.id = true) →
        bulkSaveTasks store tasks gen now = .ok st2 → SyncedHasId st2) ∧
    (∀ (store : Store) (L : String) (sv : Task) (now : String) (st2 : Store),
        SyncedHasId store → strTruthy sv.id = true →
        updateTaskAfterSync store L sv now = .ok st2 → SyncedHasId st2) ∧
    (∀ (store : Store) (L : String) (st : SyncStatus) (sid supd : Option String)
        (now : String) (st2 : Store), SyncedHasId store →
        (st = SyncStatus.synced → strTruthy sid = true) →
        updateLocalTaskStatus store L st sid supd now = .ok st2 → SyncedHasId st2) := by
  refine ⟨?_, ?_, ?_, ?_⟩
  · intro store input nowMs rand now st2 rid hinv h
    exact syncedHasId_saveTask hinv h
  · intro store tasks gen now st2 hinv hids h
    exact syncedHasId_bulkSaveAux hinv hids h
  · intro store L sv now st2 hinv hsv h
    exact syncedHasId_updateTaskAfterSync hinv hsv h
  · intro store L st sid supd now st2 hinv hst h
    exact syncedHasId_updateLocalTaskStatus hinv hst h

/-- Witness for the amended C4: a fresh save into the empty store keeps
the invariant. -/
theorem C4_witness :
    SyncedHasId
      [{ id := none, local_id := some "local_new_0_r", title := "Buy milk",
         description := none, assigned_to := none, status := TaskStatus.pending,
         is_deleted := none, created_at := some "T0", updated_at := some "T0",
         sync_status := some SyncStatus.pending_create }] :=
  C4_amended_invariant_preservation.1 []
    { title := "Buy milk", status := TaskStatus.pending } "0" "r" "T0"
    [{ id := none, local_id := some "local_new_0_r", title := "Buy milk",
       description := none, assigned_to := none, status := TaskStatus.pending,
       is_deleted := none, created_at := some "T0", updated_at := some "T0",
       sync_status := some SyncStatus.pending_create }] "local_new_0_r"
    (by decide) (by rfl)

theorem pushStep_failMsg (env : SyncEnv) (i : Nat) (task : Task) (store : Store)
    (e : String) (h : env.push i = PushCallOutcome.failMsg e) :
    pushStep env i task store = store := by
  unfold pushStep
  rw [h]

theorem pushStep_thrownMsg (env : SyncEnv) (i : Nat) (task : Task) (store : Store)
    (e : String) (h : env.push i = PushCallOutcome.thrownMsg e) :
    pushStep env i task store = store := by
  unfold pushStep
  rw [h]

theorem conflictTarget_elim {store : Store} {L : String} {u : Task} {ck : String}
    (h : conflictTarget store L u = some ck) :
    ∃ s conflict, u.id = some s ∧ s ≠ "" ∧ getFromIndexId store s = some conflict ∧
      conflict.local_id = some ck ∧ ck ≠ L := by
  unfold conflictTarget at h
  cases hu : u.id with
  | none => rw [hu] at h; simp at h
  | some s =>
    rw [hu] at h
    dsimp only at h
    by_cases hs : s = ""
    · rw [if_pos hs] at h; simp at h
    · rw [if_neg hs] at h
      cases hf : getFromIndexId store s with
      | none => rw [hf] at h; simp at h
      | some conflict =>
        rw [hf] at h
        dsimp only at h
        by_cases hc : strTruthy conflict.local_id = true ∧ conflict.local_id ≠ some L
        · rw [if_pos hc] at h
          refine ⟨s, conflict, rfl, hs, hf, h, ?_⟩
          intro he
          exact hc.2 (by rw [h, he])
        · rw [if_neg hc] at h; simp at h

theorem updateTaskAfterSync_preserves {store st2 : Store} {L A : String}
    {u t : Task} {now : String}
    (hwf : WfStore store)
    (hfind : store.find? (fun x => decide (x.local_id = some A)) = some t)
    (hLA : L ≠ A)
    (hdisj : strTruthy u.id = false ∨ u.id ≠ t.id)
    (h : updateTaskAfterSync store L u now = .ok st2) :
    st2.find? (fun x => decide (x.local_id = some A)) = some t := by
  unfold updateTaskAfterSync at h
  cases hct : conflictTarget store L u with
  | none =>
    rw [hct] at h
    dsimp only at h
    obtain ⟨k, hl, rfl, -⟩ := putTask_ok_elim h
    have hkL : k = L := by
      have hml := mergedAfterSync_local store L u now
      rw [hl] at hml
      exact Option.some.inj hml
    rw [find?_upsert_other store k A _ hl (by rw [hkL]; exact fun he => hLA he.symm)]
    exact hfind
  | some ck =>
    rw [hct] at h
    dsimp only at h
    obtain ⟨s, conflict, hus, hs, hf, hcl, hckL⟩ := conflictTarget_elim hct
    have hckA : ck ≠ A := by
      intro he
      subst he
      have hexmem : conflict ∈ store := List.mem_of_find?_eq_some hf
      have hct2 : conflict = t := key_unique hwf.2.1 hfind hexmem hcl
      rcases hdisj with hd | hd
      · rw [hus] at hd; simp [strTruthy, hs] at hd
      · apply hd
        rw [hus]
        have hcs : conflict.id = some s := by
          have := List.find?_some hf; simpa using this
        rw [← hcs, hct2]
    cases hput : putTask store (withLocalId (mergedAfterSync store L u now) ck) with
    | error e => rw [hput] at h; simp at h
    | ok stp =>
      rw [hput] at h
      simp only [Except.ok.injEq] at h
      obtain ⟨k, hl, rfl, -⟩ := putTask_ok_elim hput
      have hkck : k = ck := by
        have : (withLocalId (mergedAfterSync store L u now) ck).local_id = some ck := rfl
        rw [hl] at this
        exact Option.some.inj this
      have hupso :
          (upsert store k (withLocalId (mergedAfterSync store L u now) ck)).find?
            (fun x => decide (x.local_id = some A)) = some t := by
        rw [find?_upsert_other store k A _ hl (by rw [hkck]; exact fun he => hckA he.symm)]
        exact hfind
      rw [← h]
      split
      · exact hupso
      · rw [find?_deleteByKey_other _ L A (fun he => hLA he.symm)]
        exact hupso

theorem pushPhaseAux_preserves {env : SyncEnv} {ts : List Task} {i : Nat}
    {store : Store} {A : String} {t : Task}
    (hwf : WfStore store)
    (hfind : store.find? (fun x => decide (x.local_id = some A)) = some t)
    (hts : ∀ x ∈ ts, x.local_id ≠ some A)
    (hok : ∀ j u0, env.push j = PushCallOutcome.okTask u0 →
      strTruthy u0.id = false ∨ u0.id ≠ t.id) :
    (pushPhaseAux env ts i store).find? (fun x => decide (x.local_id = some A)) = some t ∧
    WfStore (pushPhaseAux env ts i store) := by
  induction ts generalizing i store with
  | nil => exact ⟨hfind, hwf⟩
  | cons x ts ih =>
    simp only [pushPhaseAux]
    have hstep :
        (pushStep env i x store).find? (fun y => decide (y.local_id = some A)) = some t ∧
        WfStore (pushStep env i x store) := by
      unfold pushStep
      cases hp : env.push i with
      | failMsg e => exact ⟨hfind, hwf⟩
      | thrownMsg e => exact ⟨hfind, hwf⟩
      | okTask u0 =>
        dsimp only
        by_cases hl : strTruthy x.local_id = true
        · rw [if_pos hl]
          cases hupd : updateTaskAfterSync store (x.local_id.getD "") u0 env.now with
          | error e => exact ⟨hfind, hwf⟩
          | ok stp =>
            have hLA : x.local_id.getD "" ≠ A := by
              cases hxl : x.local_id with
              | none => rw [hxl] at hl; simp [strTruthy] at hl
              | some l =>
                have hxA := hts x (by simp)
                rw [hxl] at hxA
                simpa using hxA
            exact ⟨updateTaskAfterSync_preserves hwf hfind hLA (hok i u0 hp) hupd,
                   wf_updateTaskAfterSync hwf hupd⟩
        · rw [if_neg hl]
          exact ⟨hfind, hwf⟩
    exact ih hstep.2 hstep.1 (fun y hy => hts y (by simp [hy]))

theorem pushPhaseAux_append (env : SyncEnv) (as bs : List Task) (i : Nat)
    (store : Store) :
    pushPhaseAux env (as ++ bs) i store =
      pushPhaseAux env bs (i + as.length) (pushPhaseAux env as i store) := by
  induction as generalizing i store with
  | nil => simp [pushPhaseAux]
  | cons a as ih =>
    simp only [List.cons_append, pushPhaseAux, List.append_eq]
    rw [ih]
    have harith : i + 1 + as.length = i + (as.length + 1) := by omega
    rw [List.length_cons, harith]

theorem consolidateLocalId_key_ne {store : Store} {y t : Task} {A : String}
    (hwf : WfStore store)
    (hfind : store.find? (fun z => decide (z.local_id = some A)) = some t)
    (hyl : y.local_id ≠ some A)
    (hdisj : strTruthy y.id = false ∨ y.id ≠ t.id) :
    (consolidateLocalId store y).local_id ≠ some A := by
  unfold consolidateLocalId
  cases hyi : y.id with
  | none => exact hyl
  | some s =>
    dsimp only
    by_cases hs : s = ""
    · rw [if_pos hs]; exact hyl
    · rw [if_neg hs]
      cases hf : getFromIndexId store s with
      | none => exact hyl
      | some ex =>
        dsimp only
        split
        · show ({ y with local_id := ex.local_id } : Task).local_id ≠ some A
          intro he
          have he2 : ex.local_id = some A := he
          have hexmem : ex ∈ store := List.mem_of_find?_eq_some hf
          have hext : ex = t := key_unique hwf.2.1 hfind hexmem he2
          rcases hdisj with hd | hd
          · rw [hyi] at hd; simp [strTruthy, hs] at hd
          · apply hd
            have hexs : ex.id = some s := by
              have := List.find?_some hf; simpa using this
            rw [hyi, ← hexs, hext]
        · exact hyl

theorem bulkSaveRecord_key_ne {store : Store} {x t : Task} (now : String)
    {g A : String}
    (hwf : WfStore store)
    (hfind : store.find? (fun z => decide (z.local_id = some A)) = some t)
    (hxl : x.local_id ≠ some A)
    (hxid : x.id ≠ some A)
    (hdisj : strTruthy x.id = false ∨ x.id ≠ t.id)
    (hg : g ≠ A) :
    (bulkSaveRecord store x g now).local_id ≠ some A := by
  rw [bulkSaveRecord_local_eq]
  have hyid : (bulkEnsureLocalId x g).id = x.id := (bulkEnsureLocalId_fields x g).1
  have hyl : (bulkEnsureLocalId x g).local_id ≠ some A := by
    unfold bulkEnsureLocalId
    split
    · show some (bulkSynthLocalId x g) ≠ some A
      unfold bulkSynthLocalId
      cases hxi : x.id with
      | none => simpa using hg
      | some s =>
        dsimp only
        split
        · simpa using hg
        · intro he
          apply hxid
          rw [hxi, Option.some.inj he]
    · exact hxl
  exact consolidateLocalId_key_ne hwf hfind hyl (by rw [hyid]; exact hdisj)

theorem bulkSaveAux_preserves {gen : Nat → String} {now : String} {ts : List Task}
    {i : Nat} {store st2 : Store} {A : String} {t : Task}
    (hwf : WfStore store)
    (hfind : store.find? (fun z => decide (z.local_id = some A)) = some t)
    (hts : ∀ x ∈ ts, x.local_id ≠ some A ∧ x.id ≠ some A ∧
      (strTruthy x.id = false ∨ x.id ≠ t.id))
    (hgen : ∀ j, gen j ≠ A)
    (h : bulkSaveAux gen now ts i store = .ok st2) :
    st2.find? (fun z => decide (z.local_id = some A)) = some t := by
  induction ts generalizing i store with
  | nil => simp only [bulkSaveAux, Except.ok.injEq] at h; rw [← h]; exact hfind
  | cons x ts ih =>
    simp only [bulkSaveAux] at h
    cases hstep : bulkSaveStep store x (gen i) now with
    | error e => rw [hstep] at h; simp at h
    | ok stp =>
      rw [hstep] at h
      obtain ⟨hx1, hx2, hx3⟩ := hts x (by simp)
      have hkey := bulkSaveRecord_key_ne now hwf hfind hx1 hx2 hx3 (hgen i)
      obtain ⟨k, hl, rfl, -⟩ := putTask_ok_elim hstep
      have hkA : A ≠ k := by
        intro he
        subst he
        exact hkey hl
      have hfind2 : (upsert store k (bulkSaveRecord store x (gen i) now)).find?
          (fun z => decide (z.local_id = some A)) = some t := by
        rw [find?_upsert_other store k A _ hl hkA]
        exact hfind
      exact ih (wf_putTask hwf hstep) hfind2 (fun y hy => hts y (by simp [hy])) h

/-- C8 amended: a pending record whose gateway push fails (structured
failure or thrown) is left untouched by its own push step; the loop
continues with the remaining records and the pull phase still runs and
produces the final store; and the failed record survives the whole pass
unchanged provided no successful push response and no pulled record
carries its server entity or local key. -/
theorem C8_amended_push_isolation (env : SyncEnv) (st : SyncState)
    (l1 l2 : List Task) (t : Task) (A efail : String)
    (h0 : st.isSyncing = false) (h1 : env.online = true)
    (hwf : WfStore st.store)
    (hfind : st.store.find? (fun x => decide (x.local_id = some A)) = some t)
    (hsplit : getPendingChanges st.store = l1 ++ t :: l2)
    (hfail : env.push l1.length = PushCallOutcome.failMsg efail ∨
             env.push l1.length = PushCallOutcome.thrownMsg efail)
    (hl12 : ∀ x ∈ l1 ++ l2, x.local_id ≠ some A)
    (hok : ∀ j u0, env.push j = PushCallOutcome.okTask u0 →
      strTruthy u0.id = false ∨ u0.id ≠ t.id)
    (hpull : ∀ us, env.fetch st.lastSync = FetchOutcome.okTasks us →
      ∀ x ∈ us, x.local_id ≠ some A ∧ x.id ≠ some A ∧
        (strTruthy x.id = false ∨ x.id ≠ t.id))
    (hgen : ∀ j, env.gen j ≠ A) :
    (∀ i task store e, env.push i = PushCallOutcome.failMsg e →
       pushStep env i task store = store) ∧
    (∀ i task store e, env.push i = PushCallOutcome.thrownMsg e →
       pushStep env i task store = store) ∧
    ((synchronize env false st).2.store.find?
       (fun x => decide (x.local_id = some A)) = some t) ∧
    (∀ us st3, env.fetch st.lastSync = FetchOutcome.okTasks us →
       bulkSaveTasks (pushPhase env (getPendingChanges st.store) st.store) us
         env.gen env.now = .ok st3 →
       (synchronize env false st).1.success = true ∧
       (synchronize env false st).2.store = st3) := by
  have hstore1 :
      (pushPhase env (getPendingChanges st.store) st.store).find?
        (fun x => decide (x.local_id = some A)) = some t ∧
      WfStore (pushPhase env (getPendingChanges st.store) st.store) := by
    rw [hsplit]
    unfold pushPhase
    rw [pushPhaseAux_append env l1 (t :: l2) 0 st.store]
    have hfst := pushPhaseAux_preserves (i := 0) hwf hfind
      (fun x hx => hl12 x (List.mem_append_left _ hx)) hok
    simp only [pushPhaseAux]
    have hmid : pushStep env (0 + l1.length) t (pushPhaseAux env l1 0 st.store) =
        pushPhaseAux env l1 0 st.store := by
      rcases hfail with hf | hf
      · exact pushStep_failMsg env _ t _ efail (by simpa using hf)
      · exact pushStep_thrownMsg env _ t _ efail (by simpa using hf)
    rw [hmid]
    exact pushPhaseAux_preserves hfst.2 hfst.1
      (fun x hx => hl12 x (List.mem_append_right _ hx)) hok
  refine ⟨fun i task store e hp => pushStep_failMsg env i task store e hp,
          fun i task store e hp => pushStep_thrownMsg env i task store e hp,
          ?_, ?_⟩
  · cases hfetch : env.fetch st.lastSync with
    | thrownMsg e =>
      unfold synchronize
      rw [if_neg (by simp [h1]), if_neg (by simp [h0])]
      simp only [Bool.false_eq_true, if_false]
      rw [hfetch]
      exact hstore1.1
    | errField e =>
      unfold synchronize
      rw [if_neg (by simp [h1]), if_neg (by simp [h0])]
      simp only [Bool.false_eq_true, if_false]
      rw [hfetch]
      exact hstore1.1
    | okTasks us =>
      unfold synchronize
      rw [if_neg (by simp [h1]), if_neg (by simp [h0])]
      simp only [Bool.false_eq_true, if_false]
      rw [hfetch]
      dsimp only
      by_cases hlen : us.length > 0
      · rw [if_pos hlen]
        cases hbulk : bulkSaveTasks (pushPhase env (getPendingChanges st.store) st.store)
            us env.gen env.now with
        | ok st3 =>
          exact bulkSaveAux_preserves hstore1.2 hstore1.1 (hpull us hfetch) hgen hbulk
        | error e =>
          exact hstore1.1
      · rw [if_neg hlen]
        exact hstore1.1
  · intro us st3 hfetch hbulk
    unfold synchronize
    rw [if_neg (by simp [h1]), if_neg (by simp [h0])]
    simp only [Bool.false_eq_true, if_false]
    rw [hfetch]
    dsimp only
    by_cases hlen : us.length > 0
    · rw [if_pos hlen, hbulk]
      exact ⟨rfl, rfl⟩
    · rw [if_neg hlen]
      have hus : us = [] := List.length_eq_zero.mp (by omega)
      subst hus
      have hst3 : st3 = pushPhase env (getPendingChanges st.store) st.store := by
        simpa [bulkSaveTasks, bulkSaveAux] using hbulk.symm
      exact ⟨rfl, hst3.symm⟩

/-- Counterexample to C8 as stated: the push of the only pending record
fails, yet after the pass the record no longer holds its pending_update
status — the pull phase consolidated the fetched server record onto the
same local id and overwrote it as synced — while the pass still reports
success.  The record is not retried later. -/
theorem C8_counterexample :
    ({ local_id := some "A", id := some "srv1", title := "abc",
       status := TaskStatus.pending, updated_at := some "T0",
       created_at := some "T0",
       sync_status := some SyncStatus.pending_update } : Task).sync_status =
      some SyncStatus.pending_update ∧
    (synchronize
        { online := true, push := fun _ => PushCallOutcome.failMsg "boom",
          fetch := fun _ => FetchOutcome.okTasks
            [{ id := some "srv1", title := "server", status := TaskStatus.pending,
               updated_at := some "T1", created_at := some "T1",
               sync_status := some SyncStatus.synced, is_deleted := some false }],
          gen := fun _ => "g", now := "T9" }
        false
        { store := [{ local_id := some "A", id := some "srv1", title := "abc",
                      status := TaskStatus.pending, updated_at := some "T0",
                      created_at := some "T0",
                      sync_status := some SyncStatus.pending_update }],
          isSyncing := false, lastSync := none }).1.success = true ∧
    ((synchronize
        { online := true, push := fun _ => PushCallOutcome.failMsg "boom",
          fetch := fun _ => FetchOutcome.okTasks
            [{ id := some "srv1", title := "server", status := TaskStatus.pending,
               updated_at := some "T1", created_at := some "T1",
               sync_status := some SyncStatus.synced, is_deleted := some false }],
          gen := fun _ => "g", now := "T9" }
        false
        { store := [{ local_id := some "A", id := some "srv1", title := "abc",
                      status := TaskStatus.pending, updated_at := some "T0",
                      created_at := some "T0",
                      sync_status := some SyncStatus.pending_update }],
          isSyncing := false, lastSync := none }).2.store.all
      (fun u => decide (u.sync_status ≠ some SyncStatus.pending_update)) = true) :=
  ⟨rfl, rfl, rfl⟩

/-- Witness for the amended C8: one pending record whose push fails and an
empty pull; the record survives the pass unchanged. -/
theorem C8_witness :
    (synchronize
        { online := true, push := fun _ => PushCallOutcome.failMsg "boom",
          fetch := fun _ => FetchOutcome.okTasks [], gen := fun _ => "g",
          now := "T9" }
        false
        { store := [{ local_id := some "A", id := some "srv1", title := "abc",
                      status := TaskStatus.pending,
                      sync_status := some SyncStatus.pending_update }],
          isSyncing := false, lastSync := none }).2.store.find?
      (fun x => decide (x.local_id = some "A")) =
      some { local_id := some "A", id := some "srv1", title := "abc",
             status := TaskStatus.pending,
             sync_status := some SyncStatus.pending_update } :=
  (C8_amended_push_isolation
    { online := true, push := fun _ => PushCallOutcome.failMsg "boom",
      fetch := fun _ => FetchOutcome.okTasks [], gen := fun _ => "g", now := "T9" }
    { store := [{ local_id := some "A", id := some "srv1", title := "abc",
                  status := TaskStatus.pending,
                  sync_status := some SyncStatus.pending_update }],
      isSyncing := false, lastSync := none }
    [] []
    { local_id := some "A", id := some "srv1", title := "abc",
      status := TaskStatus.pending, sync_status := some SyncStatus.pending_update }
    "A" "boom"
    rfl rfl (by decide) rfl rfl (Or.inl rfl)
    (by intro x hx; simp at hx)
    (fun j u0 h => PushCallOutcome.noConfusion h)
    (by intro us hus x hx; cases hus; simp at hx)
    (fun j => by show ("g" : String) ≠ "A"; decide)).2.2.1

end Spec
